import Mathlib

/-!
Shallow embedding of the build-in-place synchronization core.

The embedding covers, faithfully to the TypeScript sources:
  * the JSON document model and the Zod validation schema
    (src/schema/validator.ts, re-exported in vite-env.d.ts),
  * the patch pipeline of GameDocumentStore.applyPatch
    (shorthand normalization, append resolution, speculative apply,
    validate, commit via setDoc),
  * RuntimeState (variables, destroyed-node set, play flag),
  * SceneReconciler.reconcile (create / update / hide / dispose),
  * EventBus.publish and executeAction (ActionExecutor.ts).

JavaScript numbers are embedded as exact fractions (an integer numerator
with a positive integer denominator, not kept in lowest terms); all the
arithmetic the sources perform on them (addition, comparisons, equality
via ===) is exact on the values occurring in this development.
-/

-- ── JavaScript numbers ───────────────────────────────────────────────────────

/-- A JavaScript number, embedded as an exact (unreduced) fraction.
`den` is positive for every value built in this development. -/
structure JNum where
  num : Int
  den : Nat
  deriving DecidableEq, Repr

instance : OfNat JNum n := ⟨⟨n, 1⟩⟩

/-- Addition of numbers (`current + action.value`). -/
def jnumAdd (a b : JNum) : JNum := ⟨a.num * b.den + b.num * a.den, a.den * b.den⟩

/-- Value equality of numbers (JavaScript `===` on numbers). -/
def jnumEq (a b : JNum) : Bool := a.num * (b.den : Int) == b.num * (a.den : Int)

/-- Value comparison (used for the Zod `min`/`max`/`positive` checks). -/
def jnumLe (a b : JNum) : Bool := a.num * (b.den : Int) ≤ b.num * (a.den : Int)

/-- Strict value comparison. -/
def jnumLt (a b : JNum) : Bool := a.num * (b.den : Int) < b.num * (a.den : Int)

-- ── Kernel-friendly string helpers ───────────────────────────────────────────

/-- `p` is a prefix of `s` (JavaScript `String.prototype.startsWith`). -/
def strStarts (s p : String) : Bool := p.data.isPrefixOf s.data

/-- `p` is a suffix of `s` (JavaScript `String.prototype.endsWith`). -/
def strEnds (s p : String) : Bool := p.data.isSuffixOf s.data

/-- JavaScript `s.slice(0, -2)`: drop the last two characters. -/
def strDropRight2 (s : String) : String := String.mk s.data.dropLast.dropLast

def chSplitAux (sep : Char) : List Char → List Char → List String
  | [], acc => [String.mk acc.reverse]
  | c :: cs, acc =>
    if c = sep then String.mk acc.reverse :: chSplitAux sep cs []
    else chSplitAux sep cs (c :: acc)

/-- JavaScript `s.split(sep)` for a single-character separator. -/
def chSplit (s : String) (sep : Char) : List String := chSplitAux sep s.data []

def digitVal (c : Char) : Option Nat :=
  let n := c.toNat
  if 48 ≤ n ∧ n ≤ 57 then some (n - 48) else none

def natDigitsAux : List Char → Nat → Option Nat
  | [], acc => some acc
  | c :: cs, acc =>
    match digitVal c with
    | some d => natDigitsAux cs (acc * 10 + d)
    | none => none

/-- Parse a non-empty all-digit string as a natural number (the integer
test fast-json-patch applies to array path segments). -/
def parseArrayIndex (s : String) : Option Nat :=
  match s.data with
  | [] => none
  | l => natDigitsAux l 0

/-- Unescape one JSON-pointer segment: `~1` becomes `/`, `~0` becomes `~`. -/
def unescapeSegAux : List Char → List Char
  | [] => []
  | '~' :: '1' :: rest => '/' :: unescapeSegAux rest
  | '~' :: '0' :: rest => '~' :: unescapeSegAux rest
  | c :: rest => c :: unescapeSegAux rest

def unescapeSeg (s : String) : String := String.mk (unescapeSegAux s.data)

/-- Join strings with a separator (JavaScript `Array.prototype.join`). -/
def joinSep (sep : String) : List String → String
  | [] => ""
  | [s] => s
  | s :: rest => s ++ sep ++ joinSep sep rest

def strContainsAux (pat : List Char) : List Char → Bool
  | [] => pat.isPrefixOf []
  | c :: cs => pat.isPrefixOf (c :: cs) || strContainsAux pat cs

/-- Substring test: does `hay` contain `pat`? -/
def strContains (hay pat : String) : Bool := strContainsAux pat.data hay.data

-- ── Association-list maps (JavaScript objects / Map, insertion order) ────────

/-- First-match lookup (JavaScript property access / `Map.get` /
Babylon `getMaterialByName`). -/
def lookupA {α : Type} (k : String) : List (String × α) → Option α
  | [] => none
  | (k', v) :: rest => if k' = k then some v else lookupA k rest

/-- Write a key: replace the first binding in place if present, append
otherwise (JavaScript `obj[k] = v` / `Map.set`). -/
def setA {α : Type} (k : String) (v : α) : List (String × α) → List (String × α)
  | [] => [(k, v)]
  | (k', v') :: rest => if k' = k then (k, v) :: rest else (k', v') :: setA k v rest

/-- Delete a key (JavaScript `delete obj[k]`); no effect if absent. -/
def removeA {α : Type} (k : String) : List (String × α) → List (String × α)
  | [] => []
  | (k', v') :: rest => if k' = k then rest else (k', v') :: removeA k rest

-- ── JSON values ──────────────────────────────────────────────────────────────

/-- A JSON value. Objects are ordered field lists (JavaScript object
insertion order). -/
inductive Json where
  | null
  | bool (b : Bool)
  | num (n : JNum)
  | str (s : String)
  | arr (elems : List Json)
  | obj (fields : List (String × Json))

/-- JavaScript `target[seg]` as used by the append-resolution walk in
GameDocumentStore.applyPatch: property access on objects, numeric
indexing on arrays, `undefined` (None) otherwise. -/
def jsGet (j : Json) (seg : String) : Option Json :=
  match j with
  | .obj fields => lookupA seg fields
  | .arr xs =>
    match parseArrayIndex seg with
    | some i => xs.get? i
    | none => none
  | _ => none

def jsWalk (j : Json) : List String → Option Json
  | [] => some j
  | seg :: rest =>
    match jsGet j seg with
    | some c => jsWalk c rest
    | none => none

-- ── List edits with JavaScript Array.prototype.splice semantics ──────────────

/-- `splice(i, 0, v)`: insert at `i`, clamped to the length. -/
def spliceInsert {α : Type} (xs : List α) (i : Nat) (v : α) : List α :=
  match xs, i with
  | xs, 0 => v :: xs
  | [], _ + 1 => [v]
  | x :: rest, n + 1 => x :: spliceInsert rest n v

/-- `splice(i, 1)`: remove the element at `i`; no effect past the end. -/
def spliceRemove {α : Type} (xs : List α) (i : Nat) : List α :=
  match xs, i with
  | [], _ => []
  | _ :: rest, 0 => rest
  | x :: rest, n + 1 => x :: spliceRemove rest n

/-- `arr[i] = v` for an in-range index. -/
def setIdx {α : Type} (xs : List α) (i : Nat) (v : α) : List α :=
  match xs, i with
  | [], _ => []
  | _ :: rest, 0 => v :: rest
  | x :: rest, n + 1 => x :: setIdx rest n v

-- ── Typed game schema (src/schema/game.schema.ts) ────────────────────────────

namespace BIP

/-- A component descriptor attached to a node. -/
inductive Component where
  | clickable (event : String)
  | rotate (axis : String) (speed : JNum)
  | keybind (key : String) (event : String)
  | collectible (event : String)
  deriving DecidableEq, Repr

/-- A declarative action (`increment`, `destroy_node`, `transition_scene`). -/
inductive Action where
  | increment (target : String) (value : JNum)
  | destroy_node (target : String)
  | transition_scene (toScene : String) (persistVars : Option (List String))
  deriving DecidableEq, Repr

/-- An event subscription. -/
structure Subscription where
  id : String
  onEvent : String
  whenCond : Option String
  actions : List Action
  deriving DecidableEq, Repr

/-- An asset-manifest entry (`type` is `glb` or `texture`). -/
structure AssetDefinition where
  type : String
  url : String
  deriving DecidableEq, Repr

/-- One placeable scene node. `texture` has no key in the Zod schema and is
never produced by validation, but the reconciler reads it, so it is kept
in the typed model. -/
structure SceneNode where
  id : String
  type : String
  primitive : Option String
  asset : Option String
  position : JNum × JNum × JNum
  color : Option String
  texture : Option String
  size : Option JNum
  intensity : Option JNum
  components : Option (List Component)
  deriving DecidableEq, Repr

/-- One scene. `vars` embeds the source field `variables` (that word is a
reserved token in Lean). -/
structure SceneData where
  vars : Option (List (String × JNum))
  nodes : List SceneNode
  subscriptions : Option (List Subscription)
  deriving DecidableEq, Repr

/-- The authoritative document owned by GameDocumentStore. -/
structure GameDocument where
  activeScene : String
  scenes : List (String × SceneData)
  assets : Option (List (String × AssetDefinition))
  deriving DecidableEq, Repr

-- ── Zod validation (src/schema/validator.ts) ─────────────────────────────────

/-- One Zod issue: a path into the candidate document plus a message. -/
structure ZIssue where
  path : List String
  msg : String
  deriving DecidableEq, Repr

/-- Result of a Zod parse: either the typed value or every issue found. -/
abbrev ZRes (α : Type) := Except (List ZIssue) α

/-- Combine two parse results, accumulating issues from both sides. -/
def zPair {α β : Type} : ZRes α → ZRes β → ZRes (α × β)
  | .ok a, .ok b => .ok (a, b)
  | .error e1, .error e2 => .error (e1 ++ e2)
  | .error e1, .ok _ => .error e1
  | .ok _, .error e2 => .error e2

def zMap {α β : Type} (f : α → β) : ZRes α → ZRes β
  | .ok a => .ok (f a)
  | .error e => .error e

/-- The JavaScript type name of a JSON value, for issue messages. -/
def typeName : Json → String
  | .null => "null"
  | .bool _ => "boolean"
  | .num _ => "number"
  | .str _ => "string"
  | .arr _ => "array"
  | .obj _ => "object"

def zString (path : List String) : Option Json → ZRes String
  | none => .error [⟨path, "Required"⟩]
  | some (.str s) => .ok s
  | some j => .error [⟨path, "Expected string, received " ++ typeName j⟩]

/-- `z.string().min(1)`. -/
def zStringMin1 (path : List String) (oj : Option Json) : ZRes String :=
  match zString path oj with
  | .ok s =>
    if s = "" then .error [⟨path, "String must contain at least 1 character(s)"⟩]
    else .ok s
  | .error e => .error e

def zNumber (path : List String) : Option Json → ZRes JNum
  | none => .error [⟨path, "Required"⟩]
  | some (.num n) => .ok n
  | some j => .error [⟨path, "Expected number, received " ++ typeName j⟩]

/-- `z.number().positive()`. -/
def zPositive (path : List String) (oj : Option Json) : ZRes JNum :=
  match zNumber path oj with
  | .ok n =>
    if jnumLt 0 n then .ok n
    else .error [⟨path, "Number must be greater than 0"⟩]
  | .error e => .error e

/-- `z.number().min(0).max(10)` (the `intensity` bound). -/
def zIntensity (path : List String) (oj : Option Json) : ZRes JNum :=
  match zNumber path oj with
  | .ok n =>
    if !jnumLe 0 n then .error [⟨path, "Number must be greater than or equal to 0"⟩]
    else if !jnumLe n 10 then .error [⟨path, "Number must be less than or equal to 10"⟩]
    else .ok n
  | .error e => .error e

/-- `z.enum([...])`. -/
def zEnum (vals : List String) (path : List String) (oj : Option Json) : ZRes String :=
  match zString path oj with
  | .ok s => if vals.contains s then .ok s else .error [⟨path, "Invalid enum value"⟩]
  | .error e => .error e

def isHexDigit (c : Char) : Bool :=
  (digitVal c).isSome || (65 ≤ c.toNat && c.toNat ≤ 70) || (97 ≤ c.toNat && c.toNat ≤ 102)

/-- The color pattern of the schema: a `#` followed by exactly six hex digits. -/
def isHexColor (s : String) : Bool :=
  match s.data with
  | '#' :: rest => rest.length = 6 && rest.all isHexDigit
  | _ => false

/-- `z.string().regex(hex-color)`; Zod reports a plain `Invalid` for a
regex failure. -/
def zColor (path : List String) (oj : Option Json) : ZRes String :=
  match zString path oj with
  | .ok s => if isHexColor s then .ok s else .error [⟨path, "Invalid"⟩]
  | .error e => .error e

/-- Approximation of the `new URL` acceptance test behind
`z.string().url()`; only http(s) URLs occur in this development. -/
def isValidUrl (s : String) : Bool :=
  strStarts s "http://" || strStarts s "https://"

def zUrl (path : List String) (oj : Option Json) : ZRes String :=
  match zString path oj with
  | .ok s => if isValidUrl s then .ok s else .error [⟨path, "Invalid url"⟩]
  | .error e => .error e

/-- An optional field: an absent key parses to `none`. -/
def zOpt {α : Type} (f : List String → Option Json → ZRes α)
    (path : List String) (oj : Option Json) : ZRes (Option α) :=
  match oj with
  | none => .ok none
  | some j => zMap some (f path (some j))

def zListAux {α : Type} (f : List String → Json → ZRes α) (path : List String) :
    List Json → Nat → ZRes (List α)
  | [], _ => .ok []
  | j :: rest, i =>
    zMap (fun (a, l) => a :: l)
      (zPair (f (path ++ [toString i]) j) (zListAux f path rest (i + 1)))

/-- `z.array(inner)`. -/
def zList {α : Type} (f : List String → Json → ZRes α)
    (path : List String) (oj : Option Json) : ZRes (List α) :=
  match oj with
  | none => .error [⟨path, "Required"⟩]
  | some (.arr xs) => zListAux f path xs 0
  | some j => .error [⟨path, "Expected array, received " ++ typeName j⟩]

def zRecordAux {α : Type} (f : List String → Json → ZRes α) (path : List String) :
    List (String × Json) → ZRes (List (String × α))
  | [] => .ok []
  | (k, j) :: rest =>
    zMap (fun (a, l) => (k, a) :: l)
      (zPair (f (path ++ [k]) j) (zRecordAux f path rest))

/-- `z.record(z.string(), inner)`. -/
def zRecord {α : Type} (f : List String → Json → ZRes α)
    (path : List String) (oj : Option Json) : ZRes (List (String × α)) :=
  match oj with
  | none => .error [⟨path, "Required"⟩]
  | some (.obj fields) => zRecordAux f path fields
  | some j => .error [⟨path, "Expected object, received " ++ typeName j⟩]

/-- `z.tuple([z.number(), z.number(), z.number()])` (the `position` field). -/
def zPosition (path : List String) (oj : Option Json) : ZRes (JNum × JNum × JNum) :=
  match oj with
  | none => .error [⟨path, "Required"⟩]
  | some (.arr [a, b, c]) =>
    zMap (fun (x, y, z) => (x, y, z))
      (zPair (zNumber (path ++ ["0"]) (some a))
        (zPair (zNumber (path ++ ["1"]) (some b)) (zNumber (path ++ ["2"]) (some c))))
  | some (.arr _) => .error [⟨path, "Array must contain exactly 3 element(s)"⟩]
  | some j => .error [⟨path, "Expected array, received " ++ typeName j⟩]

/-- `ComponentSchema` (a discriminated union on `type`). -/
def parseComponent (path : List String) (j : Json) : ZRes Component :=
  match j with
  | .obj fields =>
    match lookupA "type" fields with
    | some (.str "clickable") =>
      zMap Component.clickable (zStringMin1 (path ++ ["event"]) (lookupA "event" fields))
    | some (.str "rotate") =>
      zMap (fun (a, s) => Component.rotate a s)
        (zPair (zEnum ["x", "y", "z"] (path ++ ["axis"]) (lookupA "axis" fields))
          (zNumber (path ++ ["speed"]) (lookupA "speed" fields)))
    | some (.str "keybind") =>
      zMap (fun (k, e) => Component.keybind k e)
        (zPair (zStringMin1 (path ++ ["key"]) (lookupA "key" fields))
          (zStringMin1 (path ++ ["event"]) (lookupA "event" fields)))
    | some (.str "collectible") =>
      zMap Component.collectible (zStringMin1 (path ++ ["event"]) (lookupA "event" fields))
    | _ => .error [⟨path ++ ["type"], "Invalid discriminator value"⟩]
  | _ => .error [⟨path, "Expected object, received " ++ typeName j⟩]

/-- `ActionSchema` (a discriminated union on `type`). -/
def parseAction (path : List String) (j : Json) : ZRes Action :=
  match j with
  | .obj fields =>
    match lookupA "type" fields with
    | some (.str "increment") =>
      zMap (fun (t, v) => Action.increment t v)
        (zPair (zStringMin1 (path ++ ["target"]) (lookupA "target" fields))
          (zNumber (path ++ ["value"]) (lookupA "value" fields)))
    | some (.str "destroy_node") =>
      zMap Action.destroy_node (zStringMin1 (path ++ ["target"]) (lookupA "target" fields))
    | some (.str "transition_scene") =>
      zMap (fun (t, p) => Action.transition_scene t p)
        (zPair (zStringMin1 (path ++ ["to"]) (lookupA "to" fields))
          (zOpt (zList (fun p j => zString p (some j))) (path ++ ["persistVars"])
            (lookupA "persistVars" fields)))
    | _ => .error [⟨path ++ ["type"], "Invalid discriminator value"⟩]
  | _ => .error [⟨path, "Expected object, received " ++ typeName j⟩]

/-- `SubscriptionSchema`. -/
def parseSubscription (path : List String) (j : Json) : ZRes Subscription :=
  match j with
  | .obj fields =>
    zMap (fun (i, (o, (w, a))) => Subscription.mk i o w a)
      (zPair (zStringMin1 (path ++ ["id"]) (lookupA "id" fields))
        (zPair (zStringMin1 (path ++ ["on"]) (lookupA "on" fields))
          (zPair (zOpt zString (path ++ ["when"]) (lookupA "when" fields))
            (zList parseAction (path ++ ["actions"]) (lookupA "actions" fields)))))
  | _ => .error [⟨path, "Expected object, received " ++ typeName j⟩]

/-- `AssetDefinitionSchema`. The free-form `metadata` object is accepted
but not retained in the typed model (no document in this development
carries one). -/
def parseAssetDefinition (path : List String) (j : Json) : ZRes AssetDefinition :=
  match j with
  | .obj fields =>
    zMap (fun (t, u) => AssetDefinition.mk t u)
      (zPair (zEnum ["glb", "texture"] (path ++ ["type"]) (lookupA "type" fields))
        (zUrl (path ++ ["url"]) (lookupA "url" fields)))
  | _ => .error [⟨path, "Expected object, received " ++ typeName j⟩]

/-- `SceneNodeSchema`. The schema has no `texture` key, so a parsed node
always carries `texture := none` (Zod strips unknown keys). -/
def parseSceneNode (path : List String) (j : Json) : ZRes SceneNode :=
  match j with
  | .obj fields =>
    zMap (fun (i, (t, (pr, (a, (pos, (c, (sz, (it, co)))))))) =>
        SceneNode.mk i t pr a pos c none sz it co)
      (zPair (zStringMin1 (path ++ ["id"]) (lookupA "id" fields))
        (zPair (zEnum ["mesh", "light"] (path ++ ["type"]) (lookupA "type" fields))
          (zPair (zOpt (zEnum ["box", "sphere", "ground"]) (path ++ ["primitive"])
              (lookupA "primitive" fields))
            (zPair (zOpt zString (path ++ ["asset"]) (lookupA "asset" fields))
              (zPair (zPosition (path ++ ["position"]) (lookupA "position" fields))
                (zPair (zOpt zColor (path ++ ["color"]) (lookupA "color" fields))
                  (zPair (zOpt zPositive (path ++ ["size"]) (lookupA "size" fields))
                    (zPair (zOpt zIntensity (path ++ ["intensity"]) (lookupA "intensity" fields))
                      (zOpt (zList parseComponent) (path ++ ["components"])
                        (lookupA "components" fields))))))))))
  | _ => .error [⟨path, "Expected object, received " ++ typeName j⟩]

/-- `SceneDataSchema`. -/
def parseSceneData (path : List String) (j : Json) : ZRes SceneData :=
  match j with
  | .obj fields =>
    zMap (fun (v, (n, s)) => SceneData.mk v n s)
      (zPair (zOpt (zRecord (fun p j => zNumber p (some j))) (path ++ ["variables"])
          (lookupA "variables" fields))
        (zPair (zList parseSceneNode (path ++ ["nodes"]) (lookupA "nodes" fields))
          (zOpt (zList parseSubscription) (path ++ ["subscriptions"])
            (lookupA "subscriptions" fields))))
  | _ => .error [⟨path, "Expected object, received " ++ typeName j⟩]

/-- `GameDocumentSchema`. -/
def parseGameDocument (j : Json) : ZRes GameDocument :=
  match j with
  | .obj fields =>
    zMap (fun (a, (s, assets)) => GameDocument.mk a s assets)
      (zPair (zStringMin1 ["activeScene"] (lookupA "activeScene" fields))
        (zPair (zRecord parseSceneData ["scenes"] (lookupA "scenes" fields))
          (zOpt (zRecord parseAssetDefinition) ["assets"] (lookupA "assets" fields))))
  | _ => .error [⟨[], "Expected object, received " ++ typeName j⟩]

-- ── Encoding the typed document back to JSON ─────────────────────────────────

/-- Append a key only when the optional value is present (absent keys model
JavaScript `undefined` properties omitted from the object). -/
def optField (k : String) (f : α → Json) : Option α → List (String × Json)
  | none => []
  | some v => [(k, f v)]

def encodeComponent : Component → Json
  | .clickable e => .obj [("type", .str "clickable"), ("event", .str e)]
  | .rotate a s => .obj [("type", .str "rotate"), ("axis", .str a), ("speed", .num s)]
  | .keybind k e => .obj [("type", .str "keybind"), ("key", .str k), ("event", .str e)]
  | .collectible e => .obj [("type", .str "collectible"), ("event", .str e)]

def encodeAction : Action → Json
  | .increment t v => .obj [("type", .str "increment"), ("target", .str t), ("value", .num v)]
  | .destroy_node t => .obj [("type", .str "destroy_node"), ("target", .str t)]
  | .transition_scene t p =>
    .obj ([("type", .str "transition_scene"), ("to", .str t)] ++
      optField "persistVars" (fun l => .arr (l.map Json.str)) p)

def encodeSubscription (s : Subscription) : Json :=
  .obj ([("id", .str s.id), ("on", .str s.onEvent)] ++
    optField "when" Json.str s.whenCond ++
    [("actions", .arr (s.actions.map encodeAction))])

def encodeSceneNode (n : SceneNode) : Json :=
  .obj ([("id", .str n.id), ("type", .str n.type)] ++
    optField "primitive" Json.str n.primitive ++
    optField "asset" Json.str n.asset ++
    [("position", .arr [.num n.position.1, .num n.position.2.1, .num n.position.2.2])] ++
    optField "color" Json.str n.color ++
    optField "texture" Json.str n.texture ++
    optField "size" Json.num n.size ++
    optField "intensity" Json.num n.intensity ++
    optField "components" (fun l => .arr (l.map encodeComponent)) n.components)

def encodeSceneData (s : SceneData) : Json :=
  .obj (optField "variables" (fun v => .obj (v.map (fun kv => (kv.1, Json.num kv.2)))) s.vars ++
    [("nodes", .arr (s.nodes.map encodeSceneNode))] ++
    optField "subscriptions" (fun l => .arr (l.map encodeSubscription)) s.subscriptions)

def encodeAssetDefinition (a : AssetDefinition) : Json :=
  .obj [("type", .str a.type), ("url", .str a.url)]

def encodeGameDocument (d : GameDocument) : Json :=
  .obj ([("activeScene", .str d.activeScene),
    ("scenes", .obj (d.scenes.map (fun kv => (kv.1, encodeSceneData kv.2))))] ++
    optField "assets" (fun l => .obj (l.map (fun kv => (kv.1, encodeAssetDefinition kv.2)))) d.assets)

-- ── JSON Patch operations (fast-json-patch, ops add / remove / replace) ──────

/-- The patch verbs exercised by the store (the `Operation` values the
external writer sends). -/
inductive PatchKind where
  | add
  | remove
  | replace
  deriving DecidableEq, Repr

/-- One JSON-Patch operation. `value` is absent for `remove`; a missing
`value` on `add`/`replace` is embedded as `null`. -/
structure PatchOp where
  op : PatchKind
  path : String
  value : Option Json := none

/-- Apply one operation below a parent chain of unescaped segments.
Failures mirror the TypeErrors fast-json-patch lets escape when a path
walks through a missing key or indexes an array with a non-integer
segment; writing past the end of an array on `replace` (a sparse-array
write in JavaScript) is embedded as a failure as well. -/
def applyOpAt (op : PatchKind) (v : Json) : Json → List String → Except String Json
  | _, [] =>
    match op with
    | .add => .ok v
    | .replace => .ok v
    | .remove => .ok .null
  | .obj fields, [k] =>
    match op with
    | .add => .ok (.obj (setA k v fields))
    | .replace => .ok (.obj (setA k v fields))
    | .remove => .ok (.obj (removeA k fields))
  | .arr xs, [k] =>
    match (if k = "-" then some xs.length else parseArrayIndex k) with
    | none => .error ("Cannot use non-integer segment \"" ++ k ++ "\" on an array")
    | some i =>
      match op with
      | .add => .ok (.arr (spliceInsert xs i v))
      | .remove => .ok (.arr (spliceRemove xs i))
      | .replace =>
        if i < xs.length then .ok (.arr (setIdx xs i v))
        else .error ("Cannot replace past the end of an array at index " ++ toString i)
  | _, [k] => .error ("Cannot perform the operation on a primitive at segment \"" ++ k ++ "\"")
  | .obj fields, k :: rest =>
    match lookupA k fields with
    | some child =>
      match applyOpAt op v child rest with
      | .ok child2 => .ok (.obj (setA k child2 fields))
      | .error e => .error e
    | none => .error ("Cannot read path segment \"" ++ k ++ "\"")
  | .arr xs, k :: rest =>
    match (if k = "-" then some xs.length else parseArrayIndex k) with
    | none => .error ("Cannot use non-integer segment \"" ++ k ++ "\" on an array")
    | some i =>
      match xs.get? i with
      | some child =>
        match applyOpAt op v child rest with
        | .ok child2 => .ok (.arr (setIdx xs i child2))
        | .error e => .error e
      | none => .error ("Cannot read array index " ++ toString i)
  | _, k :: _ => .error ("Cannot read path segment \"" ++ k ++ "\" of a primitive")

/-- Apply one JSON-Patch operation to a document: split the pointer on
`/`, drop the leading empty segment, unescape each segment. -/
def applyOperation (j : Json) (p : PatchOp) : Except String Json :=
  let segs := ((chSplit p.path '/').drop 1).map unescapeSeg
  applyOpAt p.op (p.value.getD .null) j segs

/-- `applyPatch` of fast-json-patch: apply the operations in order, the
first failure aborting the batch. -/
def applyJsonPatch (j : Json) : List PatchOp → Except String Json
  | [] => .ok j
  | p :: rest =>
    match applyOperation j p with
    | .ok j2 => applyJsonPatch j2 rest
    | .error e => .error e

-- ── validatePatches (src/schema/validator.ts) ────────────────────────────────

/-- The trailing checklist appended to every validation error string. -/
def validationChecklist : String :=
  "\n\nThe patches would create an invalid game state. Please check:\n- Node IDs are unique and non-empty\n- Colors are valid hex strings (e.g., \"#ff0000\")\n- Positions are [x, y, z] number arrays\n- Scene references exist in the scenes object\n- All required fields are present"

/-- Format the Zod issues the way validatePatches does: one `- path: message`
line per issue, paths joined with dots. -/
def formatIssues (issues : List ZIssue) : String :=
  joinSep "\n" (issues.map (fun i => "- " ++ joinSep "." i.path ++ ": " ++ i.msg))

/-- `validatePatches(doc, patches)`: speculatively apply the operations to
a clone of the document, then schema-check the result. Returns the typed
(schema-normalized) document or a descriptive error string; it never
throws. -/
def validatePatches (doc : Json) (patches : List PatchOp) : Except String GameDocument :=
  match applyJsonPatch doc patches with
  | .error e => .error ("Patch application failed: " ++ e)
  | .ok j =>
    match parseGameDocument j with
    | .error issues =>
      .error ("Validation failed:\n" ++ formatIssues issues ++ validationChecklist)
    | .ok d => .ok d

-- ── Runtime events observable by the UI and instrumentation ──────────────────

/-- Observable effects: the DOM events RuntimeState dispatches, the console
error for an unknown transition target, and the fact that a reconcile
pass was triggered. -/
inductive REvent where
  | varChanged (key : String) (value : JNum)
  | runtimeReset
  | errLog (msg : String)
  | reconciled
  deriving DecidableEq, Repr

-- ── Reconciler state (src/core/reconciler/SceneReconciler.ts) ────────────────

/-- A Babylon color value as the reconciler constructs them. -/
inductive ColorSpec where
  | rgb (r g b : JNum)
  | fromHex (s : String)
  deriving DecidableEq, Repr

/-- The material fields the reconciler reads or writes. A fresh
StandardMaterial has a white diffuse color, no diffuse texture and
alpha 1. -/
structure Material where
  diffuseColor : ColorSpec
  diffuseTexture : Option String
  alpha : JNum
  deriving DecidableEq, Repr

def freshStandardMaterial : Material :=
  ⟨.rgb 1 1 1, none, 1⟩

/-- The loading placeholder material: gray, half transparent. -/
def loadingMaterial : Material :=
  ⟨.rgb ⟨1, 2⟩ ⟨1, 2⟩ ⟨1, 2⟩, none, ⟨1, 2⟩⟩

/-- What kind of Babylon object a map entry is. -/
inductive OType where
  | light
  | mesh
  deriving DecidableEq, Repr

/-- The geometry a mesh was created with. -/
inductive Geom where
  | ground (width height : JNum)
  | sphere (diameter : JNum)
  | box (size : JNum)
  deriving DecidableEq, Repr

/-- A live renderer object (one entry of the reconciler's id→object map).
Lights carry no position or visibility in Babylon; `position` and
`visible` are only ever written under the mesh guards of the source. -/
structure RObj where
  name : String
  oType : OType
  geom : Option Geom
  position : JNum × JNum × JNum
  intensity : JNum
  scaling : JNum
  visible : Bool
  material : Option String
  deriving DecidableEq, Repr

/-- The reconciler's mutable state: the id→object map, the Babylon scene's
material list (creation order, first match wins, duplicate names allowed),
and the loadingNodes map. -/
structure RecCore where
  nodeMap : List (String × RObj)
  materials : List (String × Material)
  loading : List (String × String)
  deriving DecidableEq, Repr

/-- JavaScript truthiness of an optional string property (empty string is
falsy). -/
def optTruthy : Option String → Bool
  | none => false
  | some s => s ≠ ""

/-- createNode: lights become HemisphericLights (intensity ?? 1), a node
with a glb asset gets a synchronous placeholder box (the asynchronous
load completion is an external event outside this step function), and
everything else falls back to a primitive (box by default). Creating a
placeholder pushes its loading material and records the loading node. -/
def createNode (doc : GameDocument) (n : SceneNode) (c : RecCore) : RObj × RecCore :=
  if n.type = "light" then
    ({ name := n.id, oType := .light, geom := none, position := (0, 0, 0),
       intensity := n.intensity.getD 1, scaling := 1, visible := true,
       material := none }, c)
  else
    let primitiveFallback : RObj × RecCore :=
      ({ name := n.id, oType := .mesh,
         geom := some (match n.primitive with
           | some "ground" => .ground 10 10
           | some "sphere" => .sphere 1
           | _ => .box 1),
         position := (0, 0, 0), intensity := 1, scaling := 1, visible := true,
         material := none }, c)
    match n.asset, doc.assets with
    | some a, some assets =>
      if a = "" then primitiveFallback
      else
        match lookupA a assets with
        | some assetDef =>
          if assetDef.type = "glb" then
            ({ name := n.id, oType := .mesh, geom := some (.box ⟨1, 2⟩),
               position := (0, 0, 0), intensity := 1, scaling := 1, visible := true,
               material := some (n.id ++ "_loading") },
             { c with
               materials := c.materials ++ [(n.id ++ "_loading", loadingMaterial)],
               loading := setA n.id assetDef.url c.loading })
          else primitiveFallback
        | none => primitiveFallback
    | _, _ => primitiveFallback

/-- Whether the material-update step runs for this node
(`node.type === 'mesh' && (node.color || node.texture)`). -/
def materialTouched (n : SceneNode) : Bool :=
  n.type = "mesh" && (optTruthy n.color || optTruthy n.texture)

/-- The field writes updateMaterial performs on the fetched-or-fresh
material: the texture branch takes precedence (an unresolved texture
changes nothing), else the flat color branch clears any previous
texture. -/
def matBranch (doc : GameDocument) (n : SceneNode) (base : Material) : Material :=
  if optTruthy n.texture && doc.assets.isSome then
    match lookupA (n.texture.getD "") (doc.assets.getD []) with
    | some ta =>
      if ta.type = "texture" then
        { base with diffuseTexture := some ta.url, diffuseColor := .rgb 1 1 1 }
      else base
    | none => base
  else if optTruthy n.color then
    { base with diffuseTexture := none, diffuseColor := .fromHex (n.color.getD "") }
  else base

/-- updateMaterial: fetch the `mat_{id}` material by name — creating and
registering a fresh StandardMaterial if absent — and apply the branch
writes to it in place. -/
def matUpd (doc : GameDocument) (n : SceneNode) (mats : List (String × Material)) :
    List (String × Material) :=
  match lookupA ("mat_" ++ n.id) mats with
  | some base => setA ("mat_" ++ n.id) (matBranch doc n base) mats
  | none => mats ++ [("mat_" ++ n.id, matBranch doc n freshStandardMaterial)]

/-- The per-node update pass (steps 2–6 of reconcile): position (meshes
only — a Babylon hemispheric light has no position property), the
material assignment, light intensity, uniform scaling, and the
destroyed-state visibility. Written as one simultaneous record update:
the source's five sequential steps write disjoint fields and their
guards depend only on the node and the object's kind, which no step
changes, so this equals the sequential order. -/
def updObj (destroyed : List String) (n : SceneNode) (o : RObj) : RObj :=
  { o with
    position := if o.oType = .mesh then n.position else o.position,
    material := if materialTouched n then some ("mat_" ++ n.id) else o.material,
    intensity := match n.intensity with
      | some i => if n.type = "light" then i else o.intensity
      | none => o.intensity,
    scaling := match n.size with
      | some s => if n.type = "mesh" then s else o.scaling
      | none => o.scaling,
    visible := if n.type = "mesh" then !destroyed.contains n.id else o.visible }

/-- Visit one node of the active scene: create it if missing (returning its
id as created), then run the update pass. -/
def visitNode (doc : GameDocument) (destroyed : List String) (c : RecCore)
    (n : SceneNode) : RecCore × List String :=
  match lookupA n.id c.nodeMap with
  | some o =>
    let o2 := updObj destroyed n o
    let mats := if materialTouched n then matUpd doc n c.materials else c.materials
    ({ c with nodeMap := setA n.id o2 c.nodeMap, materials := mats }, [])
  | none =>
    let r := createNode doc n c
    let o2 := updObj destroyed n r.1
    let mats := if materialTouched n then matUpd doc n r.2.materials else r.2.materials
    ({ r.2 with nodeMap := setA n.id o2 r.2.nodeMap, materials := mats }, [n.id])

def visitAll (doc : GameDocument) (destroyed : List String) (c : RecCore) :
    List SceneNode → RecCore × List String
  | [] => (c, [])
  | n :: rest =>
    let r1 := visitNode doc destroyed c n
    let r2 := visitAll doc destroyed r1.1 rest
    (r2.1, r1.2 ++ r2.2)

/-- reconcile(doc): absent active scene is a logged no-op; otherwise visit
every node of the scene, then dispose every map entry whose id was not
visited. Returns the new state, the created ids and the disposed ids. -/
def reconcile (doc : GameDocument) (destroyed : List String) (c : RecCore) :
    RecCore × List String × List String :=
  match lookupA doc.activeScene doc.scenes with
  | none => (c, [], [])
  | some sceneData =>
    let r := visitAll doc destroyed c sceneData.nodes
    let visited := sceneData.nodes.map SceneNode.id
    let disposed := (r.1.nodeMap.filter (fun p => !visited.contains p.1)).map Prod.fst
    ({ r.1 with nodeMap := r.1.nodeMap.filter (fun p => visited.contains p.1) },
     r.2, disposed)

/-- The material list is a fixed point of updateMaterial for this node. -/
def MatFixed (doc : GameDocument) (n : SceneNode) (mats : List (String × Material)) : Prop :=
  matUpd doc n mats = mats

-- ── RuntimeState (src/core/state/RuntimeState.ts) and the world state ────────

/-- The whole single-threaded state the core mutates: the authoritative
document (GameDocumentStore), the ephemeral RuntimeState (play flag,
variables as a Map in insertion order, destroyed-node Set in insertion
order) and the reconciler state. -/
structure World where
  doc : GameDocument
  isPlaying : Bool
  vars : List (String × JNum)
  destroyedNodes : List String
  recCore : RecCore
  deriving DecidableEq, Repr

/-- RuntimeState.initVariables: seed each entry unless the key is already
present (hot-reload never loses a live value). -/
def initVariables (cur : List (String × JNum)) : List (String × JNum) → List (String × JNum)
  | [] => cur
  | kv :: rest =>
    initVariables (if (lookupA kv.1 cur).isSome then cur else cur ++ [kv]) rest

/-- RuntimeState.getVariable: absent keys read as 0. -/
def getVariable (vars : List (String × JNum)) (key : String) : JNum :=
  (lookupA key vars).getD 0

/-- RuntimeState.setVariable: write and dispatch `runtime:variable_changed`,
but only when the value actually changes (JavaScript === on numbers). -/
def setVariable (vars : List (String × JNum)) (key : String) (value : JNum) :
    List (String × JNum) × List REvent :=
  match lookupA key vars with
  | some old =>
    if jnumEq old value then (vars, [])
    else (setA key value vars, [.varChanged key value])
  | none => (setA key value vars, [.varChanged key value])

/-- RuntimeState.markDestroyed: Set.add. -/
def markDestroyed (destroyed : List String) (nodeId : String) : List String :=
  if destroyed.contains nodeId then destroyed else destroyed ++ [nodeId]

/-- RuntimeState.isDestroyed. -/
def isDestroyed (destroyed : List String) (nodeId : String) : Bool :=
  destroyed.contains nodeId

/-- RuntimeState.reset (stop playing): clear everything, dispatch
`runtime:reset`. -/
def runtimeReset (w : World) : World × List REvent :=
  ({ w with isPlaying := false, vars := [], destroyedNodes := [] }, [.runtimeReset])

-- ── GameDocumentStore (validated variant, src/core/state/GameDocumentStore.ts) ─

/-- setDoc: re-seed RuntimeState variables from the new document's active
scene (when it exists and declares variables), then replace the document. -/
def setDoc (w : World) (doc : GameDocument) : World :=
  let w :=
    match lookupA doc.activeScene doc.scenes with
    | some sceneData =>
      match sceneData.vars with
      | some vs => { w with vars := initVariables w.vars vs }
      | none => w
    | none => w
  { w with doc := doc }

/-- patchDoc: clone the current document, run the mutation callback, commit
via setDoc (the previous document value is never mutated). -/
def patchDoc (w : World) (updater : GameDocument → GameDocument) : World :=
  setDoc w (updater w.doc)

/-- The shorthand prefixes rewritten to the active scene. -/
def shorthandPrefixes : List String := ["/nodes", "/variables", "/subscriptions"]

/-- Step 1 of applyPatch: a path starting with a shorthand prefix is
rewritten under `/scenes/{activeScene}` (a plain String.startsWith test;
the loop breaks after the first matching prefix, and every prefix
produces the same rewrite). -/
def normalizeShorthand (activeScene path : String) : String :=
  if shorthandPrefixes.any (fun pre => strStarts path pre) then
    "/scenes/" ++ activeScene ++ path
  else path

/-- Step 2 of applyPatch: a path ending in the append sentinel `-` on an
add operation is rewritten to the current length of the target array,
resolved by walking the pre-batch document; if the walk does not reach
an array the path is left unchanged (with a console warning). -/
def appendSegments (path : String) : List String :=
  (chSplit (strDropRight2 path) '/').filter (fun s => s ≠ "")

def resolveAppendPath (docJ : Json) (op : PatchKind) (path : String) : String :=
  if strEnds path "/-" && op = .add then
    match jsWalk docJ (appendSegments path) with
    | some (.arr xs) => strDropRight2 path ++ "/" ++ toString xs.length
    | _ => path
  else path

/-- Normalize one operation against the pre-batch document. -/
def resolveOp (docJ : Json) (activeScene : String) (p : PatchOp) : PatchOp :=
  { p with path := resolveAppendPath docJ p.op (normalizeShorthand activeScene p.path) }

/-- The result applyPatch returns to the external writer. -/
structure PatchResult where
  success : Bool
  error : Option String
  deriving DecidableEq, Repr

/-- applyPatch (validated variant): normalize shorthand paths and append
markers against the pre-batch document, validate the speculatively
patched clone, and either commit it through setDoc or return the error
with the live world untouched. Total — it never throws. -/
def applyPatch (w : World) (patches : List PatchOp) : World × PatchResult :=
  let docJ := encodeGameDocument w.doc
  let resolved := patches.map (resolveOp docJ w.doc.activeScene)
  match validatePatches docJ resolved with
  | .error e => (w, ⟨false, some e⟩)
  | .ok newDoc => (setDoc w newDoc, ⟨true, none⟩)

-- ── ActionExecutor (src/core/bus/ActionExecutor.ts) ──────────────────────────

/-- The event payload; only `nodeId` is ever read by the executor. -/
structure EventPayload where
  nodeId : Option String := none
  deriving DecidableEq, Repr

/-- Run a reconcile pass over the world (reconciler.reconcile(getGame())),
recording that one was triggered. -/
def reconcileWorld (w : World) : World × List REvent :=
  ({ w with recCore := (reconcile w.doc w.destroyedNodes w.recCore).1 }, [.reconciled])

/-- Restore the captured persisted values one by one via setVariable. -/
def restoreVarsList (vars : List (String × JNum)) :
    List (String × JNum) → List (String × JNum) × List REvent
  | [] => (vars, [])
  | kv :: rest =>
    let r := setVariable vars kv.1 kv.2
    let r2 := restoreVarsList r.1 rest
    (r2.1, r.2 ++ r2.2)

def restoreVars (w : World) (persisted : List (String × JNum)) : World × List REvent :=
  let r := restoreVarsList w.vars persisted
  ({ w with vars := r.1 }, r.2)

/-- executeAction: the interpreter for the three action kinds, returning
the new world plus the observable events it raised. -/
def executeAction (action : Action) (payload : EventPayload) (w : World) :
    World × List REvent :=
  match action with
  | .increment target value =>
    let current := getVariable w.vars target
    let (vs, evs) := setVariable w.vars target (jnumAdd current value)
    ({ w with vars := vs }, evs)
  | .destroy_node target =>
    let targetId := if target = "$event.node" then payload.nodeId.getD "" else target
    if targetId = "" then (w, [])
    else
      let w1 := { w with destroyedNodes := markDestroyed w.destroyedNodes targetId }
      reconcileWorld w1
  | .transition_scene toScene persistVars =>
    if (lookupA toScene w.doc.scenes).isNone then
      (w, [.errLog ("Cannot transition to unknown scene: \"" ++ toScene ++ "\"")])
    else
      let persisted := (persistVars.getD []).map
        (fun k => (k, getVariable w.vars k))
      let wasPlaying := w.isPlaying
      let w1 := { w with destroyedNodes := [] }
      let w2 := patchDoc w1 (fun d => { d with activeScene := toScene })
      let w3 :=
        match (lookupA toScene w2.doc.scenes).bind SceneData.vars with
        | some vs => { w2 with vars := initVariables w2.vars vs }
        | none => w2
      let r4 := restoreVars w3 persisted
      let w5 := { r4.1 with isPlaying := wasPlaying }
      let r6 := reconcileWorld w5
      (r6.1, r4.2 ++ r6.2)

-- ── EventBus (guarded variant, src/core/bus/EventBus.ts) ─────────────────────

def executeActions (actions : List Action) (payload : EventPayload) (w : World) :
    World × List REvent :=
  actions.foldl
    (fun (acc : World × List REvent) a =>
      let (w2, evs) := executeAction a payload acc.1
      (w2, acc.2 ++ evs))
    (w, [])

/-- publish(eventName, payload): inert unless playing; reads the current
document's active scene subscriptions at publish time and executes the
actions of every subscription whose `on` matches, in array order. The
subscription list is the one read at entry; the world (document included)
evolves through the actions. -/
def publish (w : World) (eventName : String) (payload : EventPayload) :
    World × List REvent :=
  if !w.isPlaying then (w, [])
  else
    match lookupA w.doc.activeScene w.doc.scenes with
    | none => (w, [])
    | some sceneData =>
      match sceneData.subscriptions with
      | none => (w, [])
      | some subs =>
        subs.foldl
          (fun (acc : World × List REvent) sub =>
            if sub.onEvent = eventName then
              let (w2, evs) := executeActions sub.actions payload acc.1
              (w2, acc.2 ++ evs)
            else acc)
          (w, [])


-- ── The updateGameDocument CopilotKit action (src/editor/hooks/useGameActions.tsx) ─

/-- The mutable refs the action hook keeps across invocations: the
serialization of the last submitted batch and its wall-clock time. -/
structure ActionRefs where
  lastPatch : String
  lastPatchTime : Int
  deriving DecidableEq, Repr

/-- What the handler did: threw an error back to the caller, intentionally
ignored the submission, or applied it. -/
inductive HandlerResult where
  | threw (msg : String)
  | ignored
  | applied
  deriving DecidableEq, Repr

/-- JSON.stringify of a number. A denominator of 1 prints as the integer;
other exact fractions (which no real double-valued payload produces two
distinct spellings of) keep their components, which is all the guard's
string comparison needs. -/
def stringifyNum (n : JNum) : String :=
  if n.den = 1 then toString n.num else toString n.num ++ "/" ++ toString n.den

mutual

/-- JSON.stringify of a value (string escaping elided: no payload in this
development contains characters needing it). -/
def stringifyJson : Json → String
  | .null => "null"
  | .bool b => if b then "true" else "false"
  | .num n => stringifyNum n
  | .str s => "\"" ++ s ++ "\""
  | .arr xs => "[" ++ stringifyArr xs ++ "]"
  | .obj fs => "\x7b" ++ stringifyFields fs ++ "\x7d"

def stringifyArr : List Json → String
  | [] => ""
  | [x] => stringifyJson x
  | x :: y :: rest => stringifyJson x ++ "," ++ stringifyArr (y :: rest)

def stringifyFields : List (String × Json) → String
  | [] => ""
  | [(k, v)] => "\"" ++ k ++ "\":" ++ stringifyJson v
  | (k, v) :: y :: rest => "\"" ++ k ++ "\":" ++ stringifyJson v ++ "," ++ stringifyFields (y :: rest)

end

def patchKindName : PatchKind → String
  | .add => "add"
  | .remove => "remove"
  | .replace => "replace"

def encodePatchOp (p : PatchOp) : Json :=
  .obj ([("op", .str (patchKindName p.op)), ("path", .str p.path)] ++
    (match p.value with
     | some v => [("value", v)]
     | none => []))

/-- `JSON.stringify(patches)` — the canonical serialization the
duplicate-submission guard compares. -/
def stringifyPatches (ps : List PatchOp) : String :=
  stringifyJson (.arr (ps.map encodePatchOp))

/-- The handler of the updateGameDocument action: refuse edits while
playing; ignore a batch whose serialization equals the previous one
within the 2000 ms debounce window; otherwise record the batch and time,
apply it through the store, and re-throw a validation failure (an empty
error string falls back to a generic message, as `||` does). `now` is
the `Date.now()` reading of this invocation. -/
def updateGameDocument (w : World) (refs : ActionRefs) (patches : List PatchOp)
    (now : Int) : World × ActionRefs × HandlerResult :=
  if w.isPlaying then
    (w, refs, .threw "Cannot modify the scene while the game is playing. Stop the game first.")
  else
    let patchStr := stringifyPatches patches
    if refs.lastPatch = patchStr && now - refs.lastPatchTime < 2000 then
      (w, refs, .ignored)
    else
      let refs2 : ActionRefs := ⟨patchStr, now⟩
      let r := applyPatch w patches
      if r.2.success then (r.1, refs2, .applied)
      else
        (r.1, refs2,
         .threw (if r.2.error.getD "" = "" then "Patch validation failed"
           else r.2.error.getD ""))

-- ── Concrete fixtures used by the claims ─────────────────────────────────────

/-- A ground mesh with a valid color. -/
def nFloor : SceneNode :=
  ⟨"floor", "mesh", some "ground", none, (0, 0, 0), some "#334433", none, none, none, none⟩

/-- A box mesh with a valid color. -/
def nBox : SceneNode :=
  ⟨"box_1", "mesh", some "box", none, (1, 0, 2), some "#ff4444", none, none, none, none⟩

/-- A plain sphere mesh with the given id. -/
def mkSphere (i : String) : SceneNode :=
  ⟨i, "mesh", some "sphere", none, (0, 0, 0), none, none, none, none, none⟩

def sceneC1 : SceneData := ⟨some [("score", 0)], [nFloor, nBox], none⟩

/-- A one-scene document with two colored nodes. -/
def docC1 : GameDocument := ⟨"level_1", [("level_1", sceneC1)], none⟩

def w0C1 : World := ⟨docC1, false, [("score", 0)], [], ⟨[], [], []⟩⟩

/-- The rejected batch: set the first node's color to the non-hex "red". -/
def batchRed : List PatchOp := [⟨.replace, "/nodes/0/color", some (.str "red")⟩]

/-- A valid recolor batch through the shorthand path. -/
def batchRecolor : List PatchOp := [⟨.replace, "/nodes/1/color", some (.str "#999999")⟩]

/-- Two scenes, the second one active (append resolution must land there). -/
def docC3 : GameDocument :=
  ⟨"level_2",
   [("level_1", ⟨none, [nFloor], none⟩),
    ("level_2", ⟨none, [mkSphere "n0"], none⟩)], none⟩

def w0C3 : World := ⟨docC3, false, [], [], ⟨[], [], []⟩⟩

def appendOp (i : String) : PatchOp := ⟨.add, "/nodes/-", some (encodeSceneNode (mkSphere i))⟩

/-- Two scenes for the shorthand claim; `level_1` active. -/
def docC4 : GameDocument :=
  ⟨"level_1",
   [("level_1", ⟨some [("score", 0)], [nFloor, nBox], none⟩),
    ("level_2", ⟨none, [mkSphere "n0"], none⟩)], none⟩

def w0C4 : World := ⟨docC4, false, [("score", 0)], [], ⟨[], [], []⟩⟩

/-- docC4 after recoloring node 1 of the active scene and nothing else. -/
def docC4After : GameDocument :=
  ⟨"level_1",
   [("level_1", ⟨some [("score", 0)],
      [nFloor, { nBox with color := some "#999999" }], none⟩),
    ("level_2", ⟨none, [mkSphere "n0"], none⟩)], none⟩

/-- The duplicate batch of the store test: one append, submitted twice. -/
def batchDupe : List PatchOp := [appendOp "dupe_node"]

/-- A subscription that increments `score` by 1 on `evt`. -/
def subC8 : Subscription := ⟨"collect", "evt", none, [.increment "score" 1]⟩

def docC8 : GameDocument :=
  ⟨"level_1", [("level_1", ⟨some [("score", 0)], [], some [subC8]⟩)], none⟩

def w0C8 : World := ⟨docC8, true, [("score", 0)], [], ⟨[], [], []⟩⟩

/-- The hot-reload edit: bump the increment value to 100 via the
subscription shorthand path. -/
def batchVal100 : List PatchOp :=
  [⟨.replace, "/subscriptions/0/actions/0/value", some (.num 100)⟩]

/-- A two-scene document for the transition claim. -/
def docC6 : GameDocument :=
  ⟨"level_1",
   [("level_1", ⟨some [("score", 0)], [], none⟩),
    ("level_2", ⟨some [("score", 0), ("enemies", 5)], [], none⟩)], none⟩

def w0C6 : World := ⟨docC6, true, [("score", 50)], ["box_1"], ⟨[], [], []⟩⟩

/-- A light plus two colored meshes in one scene, for the reconcile claims. -/
def nSun : SceneNode :=
  ⟨"sun", "light", none, none, (5, 10, 5), none, none, none, some ⟨4, 5⟩, none⟩

def sceneR : SceneData := ⟨none, [nSun, nFloor, nBox], none⟩

def docR : GameDocument := ⟨"main", [("main", sceneR)], none⟩

-- ── C1 ───────────────────────────────────────────────────────────────────────

/-- C1. applyPatch is all-or-nothing and total: on failure the world is
returned untouched together with an error string; on success the batch
was applied and validated as a whole and the result committed via setDoc.
Concretely, setting a color to the non-hex "red" is rejected, the error
names the color path, and the prior color is retained. -/
theorem claim_C1 :
    (∀ (w : World) (ps : List PatchOp),
      ((applyPatch w ps).2.success = false →
        (applyPatch w ps).1 = w ∧ ((applyPatch w ps).2.error).isSome = true) ∧
      ((applyPatch w ps).2.success = true →
        ∃ d, validatePatches (encodeGameDocument w.doc)
            (ps.map (resolveOp (encodeGameDocument w.doc) w.doc.activeScene)) = .ok d ∧
          (applyPatch w ps).1 = setDoc w d ∧ (applyPatch w ps).2.error = none)) ∧
    ((applyPatch w0C1 batchRed).2.success = false ∧
     strContains (((applyPatch w0C1 batchRed).2.error).getD "") "scenes.level_1.nodes.0.color" = true ∧
     (applyPatch w0C1 batchRed).1 = w0C1 ∧
     ((lookupA "level_1" (applyPatch w0C1 batchRed).1.doc.scenes).bind
       (fun sd => sd.nodes.head?.bind SceneNode.color)) = some "#334433") := by
  constructor
  · intro w ps
    constructor
    · intro h
      cases hv : validatePatches (encodeGameDocument w.doc)
          (ps.map (resolveOp (encodeGameDocument w.doc) w.doc.activeScene)) with
      | error e => simp [applyPatch, hv]
      | ok d => simp [applyPatch, hv] at h
    · intro h
      cases hv : validatePatches (encodeGameDocument w.doc)
          (ps.map (resolveOp (encodeGameDocument w.doc) w.doc.activeScene)) with
      | error e => simp [applyPatch, hv] at h
      | ok d => exact ⟨d, rfl, by simp [applyPatch, hv]⟩
  · exact ⟨by decide, by decide, by decide, by decide⟩

/-- Witness for C1: a concrete successful batch goes through validation and
is committed. -/
theorem claim_C1_witness :
    ∃ d, validatePatches (encodeGameDocument w0C1.doc)
        (batchRecolor.map (resolveOp (encodeGameDocument w0C1.doc) w0C1.doc.activeScene)) = .ok d ∧
      (applyPatch w0C1 batchRecolor).1 = setDoc w0C1 d ∧
      (applyPatch w0C1 batchRecolor).2.error = none :=
  (claim_C1.1 w0C1 batchRecolor).2 (by decide)

-- ── C3 ───────────────────────────────────────────────────────────────────────

/-- C3 counterexample. In a batch with two appends to the same array both
sentinels resolve against the pre-batch document, so the second value is
inserted at the same index and displaces the first: the result is
`[n0, b, a]`, not the `[n0, a, b]` that "each append lands at the current
trailing index" would give. -/
theorem claim_C3_counterexample :
    (applyPatch w0C3 [appendOp "a", appendOp "b"]).2.success = true ∧
    ((lookupA "level_2" (applyPatch w0C3 [appendOp "a", appendOp "b"]).1.doc.scenes).map
      (fun sd => sd.nodes.map SceneNode.id)) = some ["n0", "b", "a"] ∧
    (["n0", "b", "a"] : List String) ≠ ["n0", "a", "b"] := by
  exact ⟨by decide, by decide, by decide⟩

/-- C3 (amended). An add whose path ends in the append sentinel is rewritten
to an index equal to the length the target array has in the pre-batch
document (whatever scene the path reaches); a single append therefore
lands at the trailing index of the active scene's node array, but every
append of one batch resolves to that same pre-batch length, so the later
of two appends ends up before the earlier one. -/
theorem claim_C3 :
    (∀ (docJ : Json) (path : String) (xs : List Json),
      strEnds path "/-" = true →
      jsWalk docJ (appendSegments path) = some (.arr xs) →
      (resolveAppendPath docJ .add path = strDropRight2 path ++ "/" ++ toString xs.length) ∧
      ∀ (k : PatchKind), k ≠ .add → resolveAppendPath docJ k path = path) ∧
    ((applyPatch w0C3 [appendOp "a"]).2.success = true ∧
     ((lookupA "level_2" (applyPatch w0C3 [appendOp "a"]).1.doc.scenes).map
       (fun sd => sd.nodes.map SceneNode.id)) = some ["n0", "a"] ∧
     ((lookupA "level_1" (applyPatch w0C3 [appendOp "a"]).1.doc.scenes).map
       (fun sd => sd.nodes.map SceneNode.id)) = some ["floor"]) ∧
    ((applyPatch w0C3 [appendOp "a", appendOp "b"]).2.success = true ∧
     ((lookupA "level_2" (applyPatch w0C3 [appendOp "a", appendOp "b"]).1.doc.scenes).map
       (fun sd => sd.nodes.map SceneNode.id)) = some ["n0", "b", "a"]) := by
  refine ⟨?_, ⟨by decide, by decide, by decide⟩, ⟨by decide, by decide⟩⟩
  intro docJ path xs h1 h2
  constructor
  · simp [resolveAppendPath, h1, h2]
  · intro k hk
    have : (decide (k = PatchKind.add)) = false := by
      cases k <;> simp_all
    simp [resolveAppendPath, this]

/-- Witness for C3: the sentinel on the concrete two-scene document resolves
to the pre-batch length of the active scene's node array. -/
theorem claim_C3_witness :
    resolveAppendPath (encodeGameDocument docC3) .add "/scenes/level_2/nodes/-" =
      "/scenes/level_2/nodes/" ++ toString 1 :=
  ((claim_C3.1 (encodeGameDocument docC3) "/scenes/level_2/nodes/-"
    [encodeSceneNode (mkSphere "n0")] (by decide) rfl).1)

-- ── C4 ───────────────────────────────────────────────────────────────────────

/-- C4. Shorthand normalization: a path starting with `/nodes`, `/variables`
or `/subscriptions` is rewritten under `/scenes/{activeScene}`; concretely,
replacing `/nodes/1/color` with `#999999` while `level_1` is active changes
`scenes.level_1.nodes[1].color` and nothing else in the document. -/
theorem claim_C4 :
    (∀ (active path : String),
      (strStarts path "/nodes" || strStarts path "/variables" ||
        strStarts path "/subscriptions") = true →
      normalizeShorthand active path = "/scenes/" ++ active ++ path) ∧
    ((applyPatch w0C4 batchRecolor).2.success = true ∧
     (applyPatch w0C4 batchRecolor).1.doc = docC4After) := by
  refine ⟨?_, by decide, by decide⟩
  intro active path h
  unfold normalizeShorthand
  rw [if_pos]
  simp only [shorthandPrefixes, List.any_cons, List.any_nil, Bool.or_false]
  simpa [Bool.or_assoc] using h

/-- Witness for C4: the shorthand recolor path rewritten at a concrete
active scene. -/
theorem claim_C4_witness :
    normalizeShorthand "level_1" "/nodes/1/color" = "/scenes/level_1/nodes/1/color" :=
  claim_C4.1 "level_1" "/nodes/1/color" (by decide)

-- ── C5 ───────────────────────────────────────────────────────────────────────

/-- The store itself keeps no submission history: applying the identical
batch twice directly through applyPatch appends twice (the behaviour the
repository's store test pins down with initialNodesCount + 2). The
duplicate-submission guard therefore lives one layer up, in the
updateGameDocument action handler. -/
theorem store_applyPatch_applies_duplicates :
    (applyPatch (applyPatch w0C1 batchDupe).1 batchDupe).2.success = true ∧
    ((lookupA "level_1"
        (applyPatch (applyPatch w0C1 batchDupe).1 batchDupe).1.doc.scenes).map
      (fun sd => sd.nodes.map SceneNode.id)) =
      some ["floor", "box_1", "dupe_node", "dupe_node"] := by
  exact ⟨by decide, by decide⟩

theorem applyPatch_isPlaying (w : World) (ps : List PatchOp) :
    (applyPatch w ps).1.isPlaying = w.isPlaying := by
  unfold applyPatch
  cases hv : validatePatches (encodeGameDocument w.doc)
      (ps.map (resolveOp (encodeGameDocument w.doc) w.doc.activeScene)) with
  | error e => simp [hv]
  | ok d =>
    simp only [hv]
    unfold setDoc
    cases hl : lookupA d.activeScene d.scenes with
    | none => simp
    | some sd => cases hv2 : sd.vars <;> simp [hv2]

/-- C5. Duplicate-submission guard: a batch submitted through the
updateGameDocument action is ignored when its serialization
(JSON.stringify) equals the previous submission's and its wall-clock
reading falls within the 2000 ms debounce window — the second call
returns the world and the recorded refs exactly as the first call left
them. Concretely, the same append submitted twice 500 ms apart is
ignored the second time and leaves a single appended node. -/
theorem claim_C5 :
    (∀ (w : World) (refs : ActionRefs) (ps : List PatchOp) (t1 t2 : Int),
      w.isPlaying = false →
      ¬(refs.lastPatch = stringifyPatches ps ∧ t1 - refs.lastPatchTime < 2000) →
      t2 - t1 < 2000 →
      updateGameDocument (updateGameDocument w refs ps t1).1
          (updateGameDocument w refs ps t1).2.1 ps t2 =
        ((updateGameDocument w refs ps t1).1,
         (updateGameDocument w refs ps t1).2.1, .ignored)) ∧
    ((updateGameDocument (updateGameDocument w0C1 ⟨"", 0⟩ batchDupe 100000).1
        (updateGameDocument w0C1 ⟨"", 0⟩ batchDupe 100000).2.1
        batchDupe 100500).2.2 = .ignored ∧
     ((lookupA "level_1"
         (updateGameDocument (updateGameDocument w0C1 ⟨"", 0⟩ batchDupe 100000).1
           (updateGameDocument w0C1 ⟨"", 0⟩ batchDupe 100000).2.1
           batchDupe 100500).1.doc.scenes).map
       (fun sd => sd.nodes.map SceneNode.id)) =
       some ["floor", "box_1", "dupe_node"]) := by
  refine ⟨?_, by decide, by decide⟩
  intro w refs ps t1 t2 hplay hfirst hwin
  have hw1play : (applyPatch w ps).1.isPlaying = false := by
    rw [applyPatch_isPlaying]
    exact hplay
  have hfc : ∃ res, updateGameDocument w refs ps t1 =
      ((applyPatch w ps).1, (⟨stringifyPatches ps, t1⟩ : ActionRefs), res) := by
    by_cases h1 : refs.lastPatch = stringifyPatches ps
    · have h2 : ¬(t1 - refs.lastPatchTime < 2000) := fun hx => hfirst ⟨h1, hx⟩
      by_cases hs : (applyPatch w ps).2.success = true
      · exact ⟨.applied, by simp [updateGameDocument, hplay, h1, h2, hs]⟩
      · exact ⟨.threw (if (applyPatch w ps).2.error.getD "" = ""
            then "Patch validation failed" else (applyPatch w ps).2.error.getD ""),
          by simp [updateGameDocument, hplay, h1, h2, hs]⟩
    · by_cases hs : (applyPatch w ps).2.success = true
      · exact ⟨.applied, by simp [updateGameDocument, hplay, h1, hs]⟩
      · exact ⟨.threw (if (applyPatch w ps).2.error.getD "" = ""
            then "Patch validation failed" else (applyPatch w ps).2.error.getD ""),
          by simp [updateGameDocument, hplay, h1, hs]⟩
  obtain ⟨res, hfc⟩ := hfc
  rw [hfc]
  simp [updateGameDocument, hw1play, hwin]

/-- Witness for C5: the second identical submission of the concrete batch
is ignored with the world as the first call left it. -/
theorem claim_C5_witness :
    updateGameDocument (updateGameDocument w0C1 ⟨"", 0⟩ batchDupe 100000).1
        (updateGameDocument w0C1 ⟨"", 0⟩ batchDupe 100000).2.1 batchDupe 100500 =
      ((updateGameDocument w0C1 ⟨"", 0⟩ batchDupe 100000).1,
       (updateGameDocument w0C1 ⟨"", 0⟩ batchDupe 100000).2.1, .ignored) :=
  claim_C5.1 w0C1 ⟨"", 0⟩ batchDupe 100000 100500 (by decide) (by decide) (by decide)

-- ── C10 ──────────────────────────────────────────────────────────────────────

/-- C10. destroy_node with an empty resolved target is a complete no-op:
`$event.node` with a payload that carries no node id (and likewise a
literal empty-string target) marks nothing destroyed and triggers no
reconcile. -/
theorem claim_C10 :
    ∀ (w : World) (p : EventPayload),
      (p.nodeId.getD "" = "" →
        executeAction (.destroy_node "$event.node") p w = (w, [])) ∧
      executeAction (.destroy_node "") p w = (w, []) := by
  intro w p
  constructor
  · intro h
    simp [executeAction, h]
  · simp [executeAction]

/-- Witness for C10 at a concrete world and an empty payload. -/
theorem claim_C10_witness :
    executeAction (.destroy_node "$event.node") {} w0C1 = (w0C1, []) ∧
    executeAction (.destroy_node "") {} w0C1 = (w0C1, []) :=
  ⟨(claim_C10 w0C1 {}).1 (by decide), (claim_C10 w0C1 {}).2⟩

-- ── Association-list and string lemmas ───────────────────────────────────────

theorem lookupA_setA_self {α : Type} (k : String) (v : α) (l : List (String × α)) :
    lookupA k (setA k v l) = some v := by
  induction l with
  | nil => simp [lookupA, setA]
  | cons hd tl ih =>
    by_cases h : hd.1 = k
    · simp [setA, h, lookupA]
    · simp [setA, h, lookupA, ih]

theorem lookupA_setA_ne {α : Type} {k k' : String} (h : k' ≠ k) (v : α)
    (l : List (String × α)) : lookupA k (setA k' v l) = lookupA k l := by
  induction l with
  | nil => simp [lookupA, setA, h]
  | cons hd tl ih =>
    by_cases h2 : hd.1 = k'
    · simp [setA, h2, lookupA, h]
    · simp only [setA, h2, if_false]
      by_cases h3 : hd.1 = k
      · simp [lookupA, h3]
      · simp [lookupA, h3, ih]

theorem setA_eq_of_lookup {α : Type} {k : String} {v : α} {l : List (String × α)}
    (h : lookupA k l = some v) : setA k v l = l := by
  induction l with
  | nil => simp [lookupA] at h
  | cons hd tl ih =>
    by_cases h2 : hd.1 = k
    · simp only [lookupA, h2, if_pos rfl] at h
      cases hd with
      | mk k0 v0 =>
        simp only at h2
        subst h2
        simp only [lookupA] at h
        simp [setA, Option.some_inj.mp h]
    · simp only [lookupA, h2, if_neg h2] at h
      simp [setA, h2, ih h]

theorem lookupA_append_of_some {α : Type} {k : String} {v : α} {l : List (String × α)}
    (l2 : List (String × α)) (h : lookupA k l = some v) : lookupA k (l ++ l2) = some v := by
  induction l with
  | nil => simp [lookupA] at h
  | cons hd tl ih =>
    by_cases h2 : hd.1 = k
    · simp only [lookupA, h2, if_pos rfl] at h ⊢
      simpa using h
    · simp only [lookupA, h2, if_neg h2] at h ⊢
      exact ih h

theorem lookupA_append_of_none {α : Type} {k : String} {l : List (String × α)}
    (l2 : List (String × α)) (h : lookupA k l = none) : lookupA k (l ++ l2) = lookupA k l2 := by
  induction l with
  | nil => simp
  | cons hd tl ih =>
    by_cases h2 : hd.1 = k
    · simp [lookupA, h2] at h
    · simp only [lookupA, h2, if_neg h2] at h
      simp only [List.cons_append, lookupA, h2, if_neg h2]
      exact ih h

theorem strStarts_length {path pre : String} (h : strStarts path pre = true) :
    pre.data.length ≤ path.data.length := by
  unfold strStarts at h
  exact (List.isPrefixOf_iff_prefix.mp h).length_le

theorem strDropRight2_append (a b : String) (h : 2 ≤ b.data.length) :
    strDropRight2 (a ++ b) = a ++ strDropRight2 b := by
  have hne : b.data ≠ [] := by
    intro hb
    rw [hb] at h
    simp at h
  have hne2 : b.data.dropLast ≠ [] := by
    intro hb
    have hlen := congrArg List.length hb
    simp only [List.length_dropLast, List.length_nil] at hlen
    omega
  unfold strDropRight2
  rw [String.data_append, List.dropLast_append_of_ne_nil _ hne,
    List.dropLast_append_of_ne_nil _ hne2]
  cases a with
  | mk da => rfl

-- ── C9 ───────────────────────────────────────────────────────────────────────

/-- C9. The shorthand rewrite is a raw string-prefix test: any path that
merely begins with `/nodes`, `/variables` or `/subscriptions` — including
longer first segments such as `/nodesExtra/0` — is rewritten under
`/scenes/{activeScene}`, so a resolved path always starts with `/scenes/`
and no such top-level key can ever be addressed. -/
theorem claim_C9 :
    (∀ (active path : String),
      (shorthandPrefixes.any (fun pre => strStarts path pre)) = true →
      normalizeShorthand active path = "/scenes/" ++ active ++ path) ∧
    (∀ (docJ : Json) (active path : String) (k : PatchKind) (v : Option Json),
      (shorthandPrefixes.any (fun pre => strStarts path pre)) = true →
      ∃ rest, (resolveOp docJ active ⟨k, path, v⟩).path = "/scenes/" ++ active ++ rest) ∧
    ((resolveOp (encodeGameDocument docC1) "level_1"
        ⟨.replace, "/nodesExtra/0", some .null⟩).path = "/scenes/level_1/nodesExtra/0") := by
  have hnorm : ∀ (active path : String),
      (shorthandPrefixes.any (fun pre => strStarts path pre)) = true →
      normalizeShorthand active path = "/scenes/" ++ active ++ path := by
    intro active path h
    simp [normalizeShorthand, h]
  refine ⟨hnorm, ?_, by decide⟩
  intro docJ active path k v h
  have hlen : 2 ≤ path.data.length := by
    simp only [shorthandPrefixes, List.any_cons, List.any_nil, Bool.or_false,
      Bool.or_eq_true] at h
    rcases h with h | h | h
    · refine le_trans ?_ (strStarts_length h)
      decide
    · refine le_trans ?_ (strStarts_length h)
      decide
    · refine le_trans ?_ (strStarts_length h)
      decide
  have hn := hnorm active path h
  show ∃ rest, resolveAppendPath docJ k (normalizeShorthand active path) =
    "/scenes/" ++ active ++ rest
  rw [hn]
  unfold resolveAppendPath
  split
  · split
    · next xs heq =>
      rw [strDropRight2_append ("/scenes/" ++ active) path hlen]
      exact ⟨strDropRight2 path ++ "/" ++ toString xs.length, by
        simp [String.append_assoc]⟩
    · exact ⟨path, rfl⟩
  · exact ⟨path, rfl⟩

/-- Witness for C9: a longer first segment is still rewritten. -/
theorem claim_C9_witness :
    normalizeShorthand "level_1" "/nodesExtra/0" = "/scenes/level_1/nodesExtra/0" :=
  claim_C9.1 "level_1" "/nodesExtra/0" (by decide)

-- ── C8 ───────────────────────────────────────────────────────────────────────


/-- C8. publish is inert unless playing; when playing it reads the current
document's active-scene subscriptions at publish time and runs matching
subscriptions' actions in array order. Concretely, after a patch edits
the increment value from 1 to 100, the very next publish applies 100
(score goes 0 → 1 → 101), not the value read during the prior publish. -/
theorem claim_C8 :
    (∀ (w : World) (e : String) (p : EventPayload),
      w.isPlaying = false → publish w e p = (w, [])) ∧
    (∀ (w : World) (e : String) (p : EventPayload) (sd : SceneData)
        (subs : List Subscription),
      w.isPlaying = true →
      lookupA w.doc.activeScene w.doc.scenes = some sd →
      sd.subscriptions = some subs →
      publish w e p =
        subs.foldl
          (fun (acc : World × List REvent) sub =>
            if sub.onEvent = e then
              let r := executeActions sub.actions p acc.1
              (r.1, acc.2 ++ r.2)
            else acc)
          (w, [])) ∧
    (getVariable (publish w0C8 "evt" {}).1.vars "score" = 1 ∧
     (applyPatch (publish w0C8 "evt" {}).1 batchVal100).2.success = true ∧
     getVariable (publish (applyPatch (publish w0C8 "evt" {}).1 batchVal100).1
        "evt" {}).1.vars "score" = 101) := by
  refine ⟨?_, ?_, by decide, by decide, by decide⟩
  · intro w e p h
    simp [publish, h]
  · intro w e p sd subs h1 h2 h3
    simp only [publish, h1, h2, h3, Bool.not_true, Bool.false_eq_true, if_false]

/-- Witness for C8: a stopped world ignores publish entirely. -/
theorem claim_C8_witness :
    publish ⟨docC8, false, [("score", 0)], [], ⟨[], [], []⟩⟩ "evt" {} =
      (⟨docC8, false, [("score", 0)], [], ⟨[], [], []⟩⟩, []) :=
  claim_C8.1 _ "evt" {} rfl

-- ── Variable-seeding and restore lemmas ──────────────────────────────────────

theorem jnumEq_self (v : JNum) : jnumEq v v = true := by
  simp [jnumEq]

theorem setVariable_get_self (vars : List (String × JNum)) (k : String) (v : JNum) :
    jnumEq (getVariable (setVariable vars k v).1 k) v = true := by
  unfold setVariable getVariable
  cases h : lookupA k vars with
  | some old =>
    by_cases he : jnumEq old v = true
    · simp [h, he]
    · simp [h, he, lookupA_setA_self, jnumEq_self]
  | none => simp [h, lookupA_setA_self, jnumEq_self]

theorem setVariable_lookup_other {k k' : String} (h : k' ≠ k)
    (vars : List (String × JNum)) (v : JNum) :
    lookupA k (setVariable vars k' v).1 = lookupA k vars := by
  unfold setVariable
  cases h2 : lookupA k' vars with
  | some old =>
    by_cases he : jnumEq old v = true
    · simp [he]
    · simp [he, lookupA_setA_ne h]
  | none => simp [lookupA_setA_ne h]

theorem restore_lookup_not_mem {k : String} {ps : List (String × JNum)}
    (h : k ∉ ps.map Prod.fst) (vars : List (String × JNum)) :
    lookupA k (restoreVarsList vars ps).1 = lookupA k vars := by
  induction ps generalizing vars with
  | nil => rfl
  | cons hd tl ih =>
    simp only [List.map_cons, List.mem_cons, not_or] at h
    unfold restoreVarsList
    simp only
    rw [ih h.2, setVariable_lookup_other (Ne.symm h.1)]

theorem restore_get_mem {k : String} {v : JNum} {ps : List (String × JNum)}
    (hall : ∀ q ∈ ps, q.1 = k → q.2 = v) (hmem : k ∈ ps.map Prod.fst)
    (vars : List (String × JNum)) :
    jnumEq (getVariable (restoreVarsList vars ps).1 k) v = true := by
  induction ps generalizing vars with
  | nil => simp at hmem
  | cons hd tl ih =>
    unfold restoreVarsList
    simp only
    by_cases hk : k ∈ tl.map Prod.fst
    · exact ih (fun q hq => hall q (List.mem_cons_of_mem _ hq)) hk _
    · have hhd : hd.1 = k := by
        simp only [List.map_cons, List.mem_cons] at hmem
        rcases hmem with h | h
        · exact h.symm
        · exact absurd h hk
      have hv : hd.2 = v := hall hd (List.mem_cons_self _ _) hhd
      have hframe := restore_lookup_not_mem hk (setVariable vars hd.1 hd.2).1
      unfold getVariable
      rw [hframe]
      rw [hhd, hv] at *
      have := setVariable_get_self vars k v
      unfold getVariable at this
      exact this

theorem initVariables_lookup_some {k : String} {v : JNum}
    (seed : List (String × JNum)) :
    ∀ {cur : List (String × JNum)}, lookupA k cur = some v →
      lookupA k (initVariables cur seed) = some v := by
  induction seed with
  | nil => intro cur h; exact h
  | cons hd tl ih =>
    intro cur h
    unfold initVariables
    by_cases hp : (lookupA hd.1 cur).isSome = true
    · simp only [hp, if_true]
      exact ih h
    · simp only [hp, Bool.false_eq_true, if_false]
      exact ih (lookupA_append_of_some _ h)

theorem initVariables_lookup_seed {k : String} {v : JNum}
    (seed : List (String × JNum)) :
    ∀ {cur : List (String × JNum)}, lookupA k cur = none →
      lookupA k seed = some v → lookupA k (initVariables cur seed) = some v := by
  induction seed with
  | nil => intro cur h hs; simp [lookupA] at hs
  | cons hd tl ih =>
    intro cur h hs
    unfold initVariables
    by_cases hhd : hd.1 = k
    · have hnone : lookupA hd.1 cur = none := by rw [hhd]; exact h
      simp only [hnone, Option.isSome_none, Bool.false_eq_true, if_false]
      have hv : hd.2 = v := by
        simp only [lookupA, hhd, if_pos rfl] at hs
        exact Option.some_inj.mp hs
      have hlk : lookupA k (cur ++ [hd]) = some v := by
        rw [lookupA_append_of_none _ h]
        simp [lookupA, hhd, hv]
      exact initVariables_lookup_some tl hlk
    · have hs2 : lookupA k tl = some v := by
        simpa [lookupA, hhd] using hs
      by_cases hp : (lookupA hd.1 cur).isSome = true
      · simp only [hp, if_true]
        exact ih h hs2
      · simp only [hp, Bool.false_eq_true, if_false]
        have h2 : lookupA k (cur ++ [hd]) = none := by
          rw [lookupA_append_of_none _ h]
          simp [lookupA, hhd]
        exact ih h2 hs2

-- ── C6 ───────────────────────────────────────────────────────────────────────


/-- Unfolding of executeAction on transition_scene when the target scene
exists: capture persisted values, clear the destroyed set, move the
active-scene pointer through patchDoc/setDoc (which seeds the new scene's
defaults without overwriting), seed once more, restore the captured
values, keep the play flag, reconcile. -/
theorem transition_eq {w : World} {toScene : String} {sd : SceneData}
    (pv : Option (List String)) (p : EventPayload)
    (h : lookupA toScene w.doc.scenes = some sd) :
    executeAction (.transition_scene toScene pv) p w =
      (let newDoc := { w.doc with activeScene := toScene }
       let vars1 := match sd.vars with
         | some vs => initVariables w.vars vs
         | none => w.vars
       let vars2 := match sd.vars with
         | some vs => initVariables vars1 vs
         | none => vars1
       let r := restoreVarsList vars2
         ((pv.getD []).map (fun k => (k, getVariable w.vars k)))
       ((⟨newDoc, w.isPlaying, r.1, [],
          (reconcile newDoc [] w.recCore).1⟩ : World), r.2 ++ [.reconciled])) := by
  have hne : (lookupA toScene w.doc.scenes).isNone = false := by simp [h]
  cases hv : sd.vars with
  | some vs =>
    simp [executeAction, hne, patchDoc, setDoc, restoreVars, reconcileWorld, h, hv]
  | none =>
    simp [executeAction, hne, patchDoc, setDoc, restoreVars, reconcileWorld, h, hv]

/-- C6. transition_scene: an unknown target reports an error and changes no
state; a known target captures the persisted values, clears the
destroyed-node set, retargets the document's active scene, seeds the new
scene's defaults without overwriting live values, restores each captured
value, and leaves the play flag untouched. Concretely, transitioning to
level_2 persisting ["score"] from score 50 reads 50 afterwards with an
empty destroyed set. -/
theorem claim_C6 :
    (∀ (w : World) (toScene : String) (pv : Option (List String)) (p : EventPayload),
      (lookupA toScene w.doc.scenes = none →
        executeAction (.transition_scene toScene pv) p w =
          (w, [.errLog ("Cannot transition to unknown scene: \"" ++ toScene ++ "\"")])) ∧
      (∀ sd, lookupA toScene w.doc.scenes = some sd →
        ((executeAction (.transition_scene toScene pv) p w).1.doc =
            { w.doc with activeScene := toScene } ∧
         (executeAction (.transition_scene toScene pv) p w).1.destroyedNodes = [] ∧
         (executeAction (.transition_scene toScene pv) p w).1.isPlaying = w.isPlaying) ∧
        (∀ k, k ∈ pv.getD [] →
          jnumEq (getVariable (executeAction (.transition_scene toScene pv) p w).1.vars k)
            (getVariable w.vars k) = true) ∧
        (∀ k v, lookupA k w.vars = some v → k ∉ pv.getD [] →
          lookupA k (executeAction (.transition_scene toScene pv) p w).1.vars = some v) ∧
        (∀ vs k v, sd.vars = some vs → lookupA k vs = some v →
          lookupA k w.vars = none → k ∉ pv.getD [] →
          lookupA k (executeAction (.transition_scene toScene pv) p w).1.vars = some v))) ∧
    ((executeAction (.transition_scene "level_2" (some ["score"])) {} w0C6).1.doc.activeScene
        = "level_2" ∧
     getVariable (executeAction (.transition_scene "level_2" (some ["score"])) {}
        w0C6).1.vars "score" = 50 ∧
     getVariable (executeAction (.transition_scene "level_2" (some ["score"])) {}
        w0C6).1.vars "enemies" = 5 ∧
     (executeAction (.transition_scene "level_2" (some ["score"])) {} w0C6).1.destroyedNodes
        = [] ∧
     (executeAction (.transition_scene "level_2" (some ["score"])) {} w0C6).1.isPlaying
        = true) := by
  refine ⟨?_, by decide, by decide, by decide, by decide, by decide⟩
  intro w toScene pv p
  constructor
  · intro h
    simp [executeAction, h]
  · intro sd h
    rw [transition_eq pv p h]
    simp only
    refine ⟨⟨by trivial, by trivial, by trivial⟩, ?_, ?_, ?_⟩
    · intro k hk
      apply restore_get_mem
      · intro q hq hq1
        rcases List.mem_map.mp hq with ⟨k', _, rfl⟩
        simp only at hq1
        rw [hq1]
      · simpa using hk
    · intro k v hv hk
      rw [restore_lookup_not_mem (by simpa using hk)]
      cases hvars : sd.vars with
      | some vs =>
        simp only
        exact initVariables_lookup_some _ (initVariables_lookup_some _ hv)
      | none => simpa using hv
    · intro vs k v hvars hseed hcur hk
      rw [restore_lookup_not_mem (by simpa using hk)]
      rw [hvars]
      simp only
      exact initVariables_lookup_some _ (initVariables_lookup_seed _ hcur hseed)

/-- Witness for C6: the unknown-target no-op and the concrete level_2
transition facts. -/
theorem claim_C6_witness :
    executeAction (.transition_scene "nowhere" none) {} w0C6 =
      (w0C6, [.errLog "Cannot transition to unknown scene: \"nowhere\""]) ∧
    (executeAction (.transition_scene "level_2" (some ["score"])) {}
        w0C6).1.destroyedNodes = [] := by
  constructor
  · exact (claim_C6.1 w0C6 "nowhere" none {}).1 (by decide)
  · exact (((claim_C6.1 w0C6 "level_2" (some ["score"]) {}).2
      ⟨some [("score", 0), ("enemies", 5)], [], none⟩ (by decide)).1).2.1

-- ── Reconciler lemmas ────────────────────────────────────────────────────────

theorem updObj_oType (destroyed : List String) (n : SceneNode) (o : RObj) :
    (updObj destroyed n o).oType = o.oType := rfl

/-- The per-node update pass is idempotent: it writes values that depend
only on the node, the document and the destroyed set, guarded by the
object's kind, which it never changes. -/
theorem updObj_idem (destroyed : List String) (n : SceneNode) (o : RObj) :
    updObj destroyed n (updObj destroyed n o) = updObj destroyed n o := by
  unfold updObj
  cases hi : n.intensity <;> cases hs : n.size <;>
    by_cases hm : o.oType = OType.mesh <;>
      by_cases hmt : materialTouched n = true <;>
        by_cases hl : n.type = "light" <;> by_cases hme : n.type = "mesh" <;>
          simp [hm, hmt, hl, hme]

/-- The material branch writes are idempotent (the unresolved-texture branch
is the identity; the others write constants, leaving alpha alone). -/
theorem matBranch_idem (doc : GameDocument) (n : SceneNode) (v : Material) :
    matBranch doc n (matBranch doc n v) = matBranch doc n v := by
  unfold matBranch
  by_cases h1 : (optTruthy n.texture && doc.assets.isSome) = true
  · simp only [h1, if_true]
    cases hta : lookupA (n.texture.getD "") (doc.assets.getD []) with
    | none => simp
    | some ta =>
      by_cases h2 : ta.type = "texture" <;> simp [h2]
  · simp only [h1, Bool.false_eq_true, if_false]
    by_cases h3 : optTruthy n.color = true <;> simp [h1, h3]

theorem matName_inj {a b : String} (h : "mat_" ++ a = "mat_" ++ b) : a = b := by
  have h2 := congrArg String.data h
  rw [String.data_append, String.data_append] at h2
  have h3 := List.append_cancel_left h2
  cases a with
  | mk da =>
    cases b with
    | mk db => exact congrArg String.mk (by simpa using h3)

/-- createNode leaves the id→object map untouched (the caller inserts the
created object afterwards). -/
theorem createNode_nodeMap (doc : GameDocument) (n : SceneNode) (c : RecCore) :
    (createNode doc n c).2.nodeMap = c.nodeMap := by
  unfold createNode
  split
  · rfl
  · cases hna : n.asset with
    | none => rfl
    | some a =>
      cases hda : doc.assets with
      | none => rfl
      | some assets =>
        by_cases he : a = ""
        · simp [he]
        · simp only [he, if_false]
          cases hl : lookupA a assets with
          | none => rfl
          | some assetDef =>
            by_cases hg : assetDef.type = "glb" <;> simp [hg]

/-- createNode only ever appends to the material list. -/
theorem createNode_materials (doc : GameDocument) (n : SceneNode) (c : RecCore) :
    ∃ l, (createNode doc n c).2.materials = c.materials ++ l := by
  unfold createNode
  split
  · exact ⟨[], by simp⟩
  · cases hna : n.asset with
    | none => exact ⟨[], by simp⟩
    | some a =>
      cases hda : doc.assets with
      | none => exact ⟨[], by simp⟩
      | some assets =>
        by_cases he : a = ""
        · exact ⟨[], by simp [he]⟩
        · simp only [he, if_false]
          cases hl : lookupA a assets with
          | none => exact ⟨[], by simp⟩
          | some assetDef =>
            by_cases hg : assetDef.type = "glb"
            · exact ⟨[(n.id ++ "_loading", loadingMaterial)], by simp [hg]⟩
            · exact ⟨[], by simp [hg]⟩


theorem matFixed_of_lookup {doc : GameDocument} {n : SceneNode}
    {mats : List (String × Material)} {base : Material}
    (h : lookupA ("mat_" ++ n.id) mats = some base)
    (hb : matBranch doc n base = base) : MatFixed doc n mats := by
  unfold MatFixed matUpd
  rw [h]
  simp only
  rw [hb, setA_eq_of_lookup h]

theorem matFixed_lookup {doc : GameDocument} {n : SceneNode}
    {mats : List (String × Material)} (h : MatFixed doc n mats) :
    ∃ base, lookupA ("mat_" ++ n.id) mats = some base ∧ matBranch doc n base = base := by
  unfold MatFixed matUpd at h
  cases hl : lookupA ("mat_" ++ n.id) mats with
  | some base =>
    rw [hl] at h
    simp only at h
    refine ⟨base, rfl, ?_⟩
    have h2 := congrArg (lookupA ("mat_" ++ n.id)) h
    rw [lookupA_setA_self] at h2
    rw [hl] at h2
    exact Option.some_inj.mp h2
  | none =>
    rw [hl] at h
    simp only at h
    have h2 := congrArg List.length h
    simp at h2

theorem matUpd_establishes (doc : GameDocument) (n : SceneNode)
    (mats : List (String × Material)) : MatFixed doc n (matUpd doc n mats) := by
  unfold matUpd
  cases hl : lookupA ("mat_" ++ n.id) mats with
  | some base =>
    simp only
    exact matFixed_of_lookup (lookupA_setA_self _ _ _) (matBranch_idem doc n base)
  | none =>
    simp only
    refine matFixed_of_lookup ?_ (matBranch_idem doc n freshStandardMaterial)
    rw [lookupA_append_of_none _ hl]
    simp [lookupA]

theorem matFixed_setA_ne {doc : GameDocument} {n : SceneNode} {name : String}
    (hne : name ≠ "mat_" ++ n.id) {mats : List (String × Material)} (v : Material)
    (h : MatFixed doc n mats) : MatFixed doc n (setA name v mats) := by
  obtain ⟨base, hl, hb⟩ := matFixed_lookup h
  exact matFixed_of_lookup (by rw [lookupA_setA_ne hne, hl]) hb

theorem matFixed_append {doc : GameDocument} {n : SceneNode}
    {mats : List (String × Material)} (l : List (String × Material))
    (h : MatFixed doc n mats) : MatFixed doc n (mats ++ l) := by
  obtain ⟨base, hl, hb⟩ := matFixed_lookup h
  exact matFixed_of_lookup (lookupA_append_of_some _ hl) hb

theorem matFixed_matUpd_ne {doc : GameDocument} {n m : SceneNode}
    (hne : m.id ≠ n.id) {mats : List (String × Material)}
    (h : MatFixed doc n mats) : MatFixed doc n (matUpd doc m mats) := by
  have hname : "mat_" ++ m.id ≠ "mat_" ++ n.id := fun hc => hne (matName_inj hc)
  unfold matUpd
  cases hl : lookupA ("mat_" ++ m.id) mats with
  | some base => exact matFixed_setA_ne hname _ h
  | none => exact matFixed_append _ h

theorem visitNode_found {doc : GameDocument} {destroyed : List String} {c : RecCore}
    {n : SceneNode} {o : RObj} (h : lookupA n.id c.nodeMap = some o) :
    visitNode doc destroyed c n =
      ({ c with
          nodeMap := setA n.id (updObj destroyed n o) c.nodeMap,
          materials := if materialTouched n then matUpd doc n c.materials
            else c.materials }, []) := by
  unfold visitNode
  rw [h]

theorem visitNode_missing {doc : GameDocument} {destroyed : List String} {c : RecCore}
    {n : SceneNode} (h : lookupA n.id c.nodeMap = none) :
    visitNode doc destroyed c n =
      ({ (createNode doc n c).2 with
          nodeMap := setA n.id (updObj destroyed n (createNode doc n c).1)
            (createNode doc n c).2.nodeMap,
          materials := if materialTouched n then matUpd doc n (createNode doc n c).2.materials
            else (createNode doc n c).2.materials }, [n.id]) := by
  unfold visitNode
  rw [h]

theorem visitNode_lookup_ne {doc : GameDocument} {destroyed : List String} {c : RecCore}
    {n : SceneNode} {x : String} (hx : x ≠ n.id) :
    lookupA x (visitNode doc destroyed c n).1.nodeMap = lookupA x c.nodeMap := by
  cases hl : lookupA n.id c.nodeMap with
  | some o =>
    rw [visitNode_found hl]
    exact lookupA_setA_ne (Ne.symm hx) _ _
  | none =>
    rw [visitNode_missing hl]
    simp only
    rw [lookupA_setA_ne (Ne.symm hx), createNode_nodeMap]

theorem visitNode_lookup_self (doc : GameDocument) (destroyed : List String)
    (c : RecCore) (n : SceneNode) :
    ∃ o0, lookupA n.id (visitNode doc destroyed c n).1.nodeMap =
      some (updObj destroyed n o0) := by
  cases hl : lookupA n.id c.nodeMap with
  | some o => exact ⟨o, by rw [visitNode_found hl]; exact lookupA_setA_self _ _ _⟩
  | none =>
    exact ⟨(createNode doc n c).1, by rw [visitNode_missing hl]; exact lookupA_setA_self _ _ _⟩

theorem visitNode_lookup_isSome {doc : GameDocument} {destroyed : List String}
    {c : RecCore} {n : SceneNode} {x : String} :
    (lookupA x (visitNode doc destroyed c n).1.nodeMap).isSome = true ↔
      x = n.id ∨ (lookupA x c.nodeMap).isSome = true := by
  by_cases hx : x = n.id
  · subst hx
    obtain ⟨o0, h0⟩ := visitNode_lookup_self doc destroyed c n
    simp [h0]
  · rw [visitNode_lookup_ne hx]
    simp [hx]

theorem visitNode_preserves_matFixed {doc : GameDocument} {destroyed : List String}
    {c : RecCore} {m n : SceneNode} (hne : m.id ≠ n.id)
    (h : MatFixed doc n c.materials) :
    MatFixed doc n (visitNode doc destroyed c m).1.materials := by
  cases hl : lookupA m.id c.nodeMap with
  | some o =>
    rw [visitNode_found hl]
    by_cases ht : materialTouched m = true
    · simp only [ht, if_true]
      exact matFixed_matUpd_ne hne h
    · simp only [ht, Bool.false_eq_true, if_false]
      exact h
  | none =>
    rw [visitNode_missing hl]
    obtain ⟨l, hlm⟩ := createNode_materials doc m c
    by_cases ht : materialTouched m = true
    · simp only [ht, if_true, hlm]
      exact matFixed_matUpd_ne hne (matFixed_append l h)
    · simp only [ht, Bool.false_eq_true, if_false, hlm]
      exact matFixed_append l h

theorem visitNode_establishes_matFixed {doc : GameDocument} {destroyed : List String}
    {c : RecCore} {n : SceneNode} (ht : materialTouched n = true) :
    MatFixed doc n (visitNode doc destroyed c n).1.materials := by
  cases hl : lookupA n.id c.nodeMap with
  | some o =>
    rw [visitNode_found hl]
    simp only [ht, if_true]
    exact matUpd_establishes doc n c.materials
  | none =>
    rw [visitNode_missing hl]
    simp only [ht, if_true]
    exact matUpd_establishes doc n (createNode doc n c).2.materials

theorem visitAll_lookup_ne {doc : GameDocument} {destroyed : List String}
    {x : String} {L : List SceneNode} (hx : x ∉ L.map SceneNode.id) :
    ∀ {c : RecCore},
      lookupA x (visitAll doc destroyed c L).1.nodeMap = lookupA x c.nodeMap := by
  induction L with
  | nil => intro c; rfl
  | cons hd tl ih =>
    intro c
    simp only [List.map_cons, List.mem_cons, not_or] at hx
    unfold visitAll
    simp only
    rw [ih hx.2, visitNode_lookup_ne hx.1]

theorem visitAll_lookup_mem {doc : GameDocument} {destroyed : List String}
    {n : SceneNode} {L : List SceneNode} (hnd : (L.map SceneNode.id).Nodup)
    (hn : n ∈ L) :
    ∀ {c : RecCore}, ∃ o0,
      lookupA n.id (visitAll doc destroyed c L).1.nodeMap =
        some (updObj destroyed n o0) := by
  induction L with
  | nil => cases hn
  | cons hd tl ih =>
    intro c
    rw [List.map_cons, List.nodup_cons] at hnd
    unfold visitAll
    simp only
    rcases List.mem_cons.mp hn with h | h
    · subst h
      have hni : n.id ∉ tl.map SceneNode.id := hnd.1
      obtain ⟨o0, h0⟩ := visitNode_lookup_self doc destroyed c n
      exact ⟨o0, by rw [visitAll_lookup_ne hni, h0]⟩
    · exact ih hnd.2 h

theorem visitAll_lookup_isSome {doc : GameDocument} {destroyed : List String}
    {x : String} {L : List SceneNode} :
    ∀ {c : RecCore},
      ((lookupA x (visitAll doc destroyed c L).1.nodeMap).isSome = true ↔
        x ∈ L.map SceneNode.id ∨ (lookupA x c.nodeMap).isSome = true) := by
  induction L with
  | nil => intro c; simp [visitAll]
  | cons hd tl ih =>
    intro c
    unfold visitAll
    simp only
    rw [ih, visitNode_lookup_isSome]
    simp only [List.map_cons, List.mem_cons]
    tauto

theorem visitAll_preserves_matFixed {doc : GameDocument} {destroyed : List String}
    {n : SceneNode} {L : List SceneNode} (hnm : n.id ∉ L.map SceneNode.id) :
    ∀ {c : RecCore}, MatFixed doc n c.materials →
      MatFixed doc n (visitAll doc destroyed c L).1.materials := by
  induction L with
  | nil => intro c h; exact h
  | cons hd tl ih =>
    intro c h
    simp only [List.map_cons, List.mem_cons, not_or] at hnm
    unfold visitAll
    simp only
    exact ih hnm.2 (visitNode_preserves_matFixed (fun he => hnm.1 he.symm) h)

theorem visitAll_matFixed {doc : GameDocument} {destroyed : List String}
    {n : SceneNode} {L : List SceneNode} (hnd : (L.map SceneNode.id).Nodup)
    (hn : n ∈ L) (ht : materialTouched n = true) :
    ∀ {c : RecCore}, MatFixed doc n (visitAll doc destroyed c L).1.materials := by
  induction L with
  | nil => cases hn
  | cons hd tl ih =>
    intro c
    rw [List.map_cons, List.nodup_cons] at hnd
    unfold visitAll
    simp only
    rcases List.mem_cons.mp hn with h | h
    · subst h
      exact visitAll_preserves_matFixed hnd.1 (visitNode_establishes_matFixed ht)
    · exact ih hnd.2 h

theorem visitNode_fixed {doc : GameDocument} {destroyed : List String} {c : RecCore}
    {n : SceneNode}
    (ho : ∃ o, lookupA n.id c.nodeMap = some o ∧ updObj destroyed n o = o)
    (hm : materialTouched n = true → MatFixed doc n c.materials) :
    visitNode doc destroyed c n = (c, []) := by
  obtain ⟨o, hl, hu⟩ := ho
  rw [visitNode_found hl, hu, setA_eq_of_lookup hl]
  by_cases ht : materialTouched n = true
  · have hmf := hm ht
    unfold MatFixed at hmf
    simp only [ht, if_true, hmf]
  · simp only [ht, Bool.false_eq_true, if_false]

theorem visitAll_fixed {doc : GameDocument} {destroyed : List String} {c : RecCore}
    {L : List SceneNode} (h : ∀ n ∈ L, visitNode doc destroyed c n = (c, [])) :
    visitAll doc destroyed c L = (c, []) := by
  induction L with
  | nil => rfl
  | cons hd tl ih =>
    unfold visitAll
    rw [h hd (List.mem_cons_self hd tl)]
    simp only
    rw [ih (fun n hn => h n (List.mem_cons_of_mem hd hn))]
    rfl

theorem lookupA_filter {α : Type} (pred : String → Bool) (l : List (String × α))
    (x : String) :
    lookupA x (l.filter (fun p => pred p.1)) =
      if pred x then lookupA x l else none := by
  induction l with
  | nil => simp [lookupA]
  | cons hd tl ih =>
    by_cases hx : hd.1 = x
    · by_cases hp : pred hd.1 = true
      · rw [hx] at hp
        simp [List.filter_cons, hx, hp, lookupA, ih]
      · rw [hx] at hp
        simp [List.filter_cons, hx, hp, lookupA, ih]
    · by_cases hp : pred hd.1 = true
      · simp [List.filter_cons, hp, lookupA, hx, ih]
      · simp [List.filter_cons, hp, lookupA, hx, ih]

theorem reconcile_some {doc : GameDocument} {sd : SceneData}
    (destroyed : List String) (c : RecCore)
    (h : lookupA doc.activeScene doc.scenes = some sd) :
    reconcile doc destroyed c =
      ({ (visitAll doc destroyed c sd.nodes).1 with
          nodeMap := (visitAll doc destroyed c sd.nodes).1.nodeMap.filter
            (fun p => (sd.nodes.map SceneNode.id).contains p.1) },
       (visitAll doc destroyed c sd.nodes).2,
       ((visitAll doc destroyed c sd.nodes).1.nodeMap.filter
         (fun p => !(sd.nodes.map SceneNode.id).contains p.1)).map Prod.fst) := by
  unfold reconcile
  rw [h]

-- ── C2 ───────────────────────────────────────────────────────────────────────

/-- C2. reconcile is idempotent: when the active scene exists (its node ids
unique, per the document invariant), a second reconcile with the same
document and destroyed set creates no objects, disposes none, and leaves
the whole reconciler state — the id→object map, the material list and
every object's visible flag — exactly as the first call left it; and when
the active scene is absent, reconcile returns with no side effect at
all. -/
theorem claim_C2 :
    (∀ (doc : GameDocument) (destroyed : List String) (c : RecCore) (sd : SceneData),
      lookupA doc.activeScene doc.scenes = some sd →
      (sd.nodes.map SceneNode.id).Nodup →
      reconcile doc destroyed (reconcile doc destroyed c).1 =
        ((reconcile doc destroyed c).1, [], [])) ∧
    (∀ (doc : GameDocument) (destroyed : List String) (c : RecCore),
      lookupA doc.activeScene doc.scenes = none →
      reconcile doc destroyed c = (c, [], [])) := by
  constructor
  · intro doc destroyed c sd h hnd
    have h1 := reconcile_some destroyed c h
    set F := visitAll doc destroyed c sd.nodes with hF
    set ids := sd.nodes.map SceneNode.id with hids
    set c1 : RecCore :=
      { F.1 with nodeMap := F.1.nodeMap.filter (fun p => ids.contains p.1) } with hc1
    have h2 : (reconcile doc destroyed c).1 = c1 := by rw [h1]
    rw [h2]
    have hfix : ∀ n ∈ sd.nodes, visitNode doc destroyed c1 n = (c1, []) := by
      intro n hn
      have hcont : ids.contains n.id = true := by
        rw [hids]
        simpa using List.mem_map_of_mem SceneNode.id hn
      obtain ⟨o0, ho0⟩ := @visitAll_lookup_mem doc destroyed n sd.nodes hnd hn c
      have hl1 : lookupA n.id c1.nodeMap = some (updObj destroyed n o0) := by
        rw [hc1]
        simp only
        rw [lookupA_filter (fun k => ids.contains k) F.1.nodeMap n.id, if_pos hcont]
        exact ho0
      apply visitNode_fixed
      · exact ⟨updObj destroyed n o0, hl1, updObj_idem destroyed n o0⟩
      · intro ht
        have hmf : MatFixed doc n F.1.materials :=
          @visitAll_matFixed doc destroyed n sd.nodes hnd hn ht c
        rw [hc1]
        exact hmf
    rw [reconcile_some destroyed c1 h]
    rw [visitAll_fixed hfix]
    simp only
    have hkeys : ∀ p ∈ c1.nodeMap, ids.contains p.1 = true := by
      intro p hp
      rw [hc1] at hp
      simp only at hp
      exact (List.mem_filter.mp hp).2
    have hfilter : c1.nodeMap.filter (fun p => ids.contains p.1) = c1.nodeMap :=
      List.filter_eq_self.mpr hkeys
    have hdisp : c1.nodeMap.filter (fun p => !ids.contains p.1) = [] := by
      rw [List.filter_eq_nil_iff]
      intro p hp
      simpa using hkeys p hp
    rw [hfilter, hdisp]
    rfl
  · intro doc destroyed c h
    unfold reconcile
    rw [h]


/-- Witness for C2: the second reconcile of a concrete three-node scene is
a perfect no-op. -/
theorem claim_C2_witness :
    reconcile docR [] (reconcile docR [] ⟨[], [], []⟩).1 =
      ((reconcile docR [] ⟨[], [], []⟩).1, [], []) :=
  claim_C2.1 docR [] ⟨[], [], []⟩ sceneR (by decide) (by decide)

-- ── C7 ───────────────────────────────────────────────────────────────────────

/-- C7 counterexample. Visibility is only written for mesh nodes: a light
node whose id is marked destroyed keeps emitting (its object is not
hidden), so "visibility is false iff the id is destroyed" fails for the
node list as a whole. -/
theorem claim_C7_counterexample :
    nSun ∈ sceneR.nodes ∧
    isDestroyed ["sun"] "sun" = true ∧
    ((lookupA "sun" (reconcile docR ["sun"] ⟨[], [], []⟩).1.nodeMap).map RObj.visible) =
      some true := by
  exact ⟨by decide, by decide, by decide⟩

/-- C7 (amended). After a reconcile whose active scene exists (node ids
unique), the id→object map's keys are exactly the scene's listed node
ids — objects for absent ids are disposed and removed — and for every
mesh-type node the object stays in the map with its visibility false
exactly when the id is in the destroyed set (so un-marking restores
visibility on the next reconcile); light nodes are created and kept but
never hidden. -/
theorem claim_C7 :
    ∀ (doc : GameDocument) (destroyed : List String) (c : RecCore) (sd : SceneData),
      lookupA doc.activeScene doc.scenes = some sd →
      (sd.nodes.map SceneNode.id).Nodup →
      (∀ x, (lookupA x (reconcile doc destroyed c).1.nodeMap).isSome = true ↔
        x ∈ sd.nodes.map SceneNode.id) ∧
      (∀ n ∈ sd.nodes, n.type = "mesh" →
        ∃ o, lookupA n.id (reconcile doc destroyed c).1.nodeMap = some o ∧
          (o.visible = false ↔ isDestroyed destroyed n.id = true)) := by
  intro doc destroyed c sd h hnd
  rw [reconcile_some destroyed c h]
  constructor
  · intro x
    simp only
    rw [lookupA_filter (fun k => (sd.nodes.map SceneNode.id).contains k)
      (visitAll doc destroyed c sd.nodes).1.nodeMap x]
    by_cases hx : (sd.nodes.map SceneNode.id).contains x = true
    · rw [if_pos hx]
      constructor
      · intro _
        simpa using hx
      · intro hm
        exact visitAll_lookup_isSome.mpr (Or.inl hm)
    · rw [if_neg hx]
      simp only [Option.isSome_none, Bool.false_eq_true, false_iff]
      intro hm
      exact hx (by simpa using hm)
  · intro n hn hmesh
    have hcont : (sd.nodes.map SceneNode.id).contains n.id = true := by
      simpa using List.mem_map_of_mem SceneNode.id hn
    obtain ⟨o0, ho0⟩ := @visitAll_lookup_mem doc destroyed n sd.nodes hnd hn c
    refine ⟨updObj destroyed n o0, ?_, ?_⟩
    · simp only
      rw [lookupA_filter (fun k => (sd.nodes.map SceneNode.id).contains k)
        (visitAll doc destroyed c sd.nodes).1.nodeMap n.id, if_pos hcont]
      exact ho0
    · unfold updObj isDestroyed
      simp [hmesh]

/-- Witness for C7: the destroyed box stays in the map, hidden, in the
concrete scene. -/
theorem claim_C7_witness :
    ∃ o, lookupA "box_1" (reconcile docR ["box_1"] ⟨[], [], []⟩).1.nodeMap = some o ∧
      (o.visible = false ↔ isDestroyed ["box_1"] "box_1" = true) :=
  (claim_C7 docR ["box_1"] ⟨[], [], []⟩ sceneR (by decide) (by decide)).2
    nBox (by decide) (by decide)
